import Mathlib

/-!
Verification development for the D-PPG Vasoquant 1000 reader.

This file gives a shallow embedding of the core of the repository —
the streaming protocol decoder (src/protocol.py, src/models.py) and the
waveform analysis engine (src/analysis.py, src/config.py) — and settles a
list of claims about it.

Modelling conventions:
- bytes are `Nat` (a Python `bytearray` guarantees values in [0, 255];
  bit operations use `Nat.lor` / `<<<` exactly as the source);
- Python `float` arithmetic is modelled by exact rational arithmetic `ℚ`
  (all sample values are small integers, so the comparisons and the
  divisions performed by the source are exact in this range);
- Python `round` (banker's rounding) is modelled by `pyRound`;
- the iteration of `parse_buffer` is modelled with explicit fuel;
  `parseLoop_fuel_irrelevant` shows any fuel above the buffer length gives
  the same result, which is the termination of the source loop;
- `scipy.optimize.curve_fit` (used only for the optional `tau` field) is
  external library code; its guards are modelled faithfully and the fit
  itself is modelled as a non-converging fit (`none`).  No claim depends
  on `tau`.
-/

set_option maxRecDepth 100000

namespace DPPG

/-! ## Protocol constants (src/config.py, class Protocol) -/

def ESC : Nat := 27

def EOT : Nat := 4

def SOH : Nat := 1

def GSB : Nat := 29

/-! ## Data model (src/models.py) -/

/-- Quantitative parameters of the D-PPG curve (src/models.py, PPGParameters). -/
structure PPGParameters where
  To : ℚ
  Th : ℚ
  Ti : ℚ
  Vo : ℚ
  Fo : ℚ
  tau : Option ℚ
  peak_index : Nat
  To_end_index : Nat
  exercise_start_index : Nat
  baseline_value : ℚ
  peak_value : ℚ
deriving DecidableEq

/-- Maximum of a nonempty list of naturals (Python max; 0 on []). -/
def listMaxN : List Nat → Nat
  | [] => 0
  | x :: xs => xs.foldl max x

/-- Minimum of a nonempty list of naturals (Python min; 0 on []). -/
def listMinN : List Nat → Nat
  | [] => 0
  | x :: xs => xs.foldl min x

/-- Outlier test of the first trimming loop: value outside
median plus or minus 2.5 * iqr.  The float comparison is exact, and is
scaled by 2 to stay in ℤ. -/
def trimOutlierB (median iqr : Nat) (v : Nat) : Bool :=
  decide (2 * (v : ℤ) < 2 * (median : ℤ) - 5 * (iqr : ℤ) ∨
          2 * (v : ℤ) > 2 * (median : ℤ) + 5 * (iqr : ℤ))

/-- Deviation test of the secondary trimming loop: |value - median| > 1.5 * iqr,
scaled by 2 to stay in ℤ. -/
def trimDeviantB (median iqr : Nat) (v : Nat) : Bool :=
  decide (2 * |(v : ℤ) - (median : ℤ)| > 3 * (iqr : ℤ))

/-- Body of PPGBlock._trim_trailing_artifacts after the median/quartile
statistics have been computed, parametrised by the effective IQR actually
used for the decision (src/models.py lines 140-165). -/
def trimAfterStats (samples : List Nat) (median : Nat) (iqr : Nat) : List Nat :=
  let n := samples.length
  let main_samples := samples.take (n - 5)
  match (samples.drop (n - 5)).findIdx? (trimOutlierB median iqr) with
  | some j => samples.take (n - 5 + j)
  | none =>
    let last_5 := samples.drop (n - 5)
    let last_range := listMaxN last_5 - listMinN last_5
    let main_range :=
      if 20 ≤ main_samples.length then
        listMaxN (main_samples.drop (main_samples.length - 20)) -
          listMinN (main_samples.drop (main_samples.length - 20))
      else iqr
    if last_range > main_range * 2 then
      match (samples.drop (n - 5)).findIdx? (trimDeviantB median iqr) with
      | some j => samples.take (n - 5 + j)
      | none => samples
    else samples

/-- Median and quartiles used by the trimmer: (median, q1, q3) of the sorted
all-but-last-5 samples (src/models.py lines 133-137). -/
def trimStats (samples : List Nat) : Nat × Nat × Nat :=
  let main_samples := samples.take (samples.length - 5)
  let sorted_main := List.insertionSort (· ≤ ·) main_samples
  let nm := sorted_main.length
  (sorted_main.getD (nm / 2) 0, sorted_main.getD (nm / 4) 0, sorted_main.getD (3 * nm / 4) 0)

/-- Embedding of PPGBlock._trim_trailing_artifacts (src/models.py lines 111-165).
Removes trailing protocol-control artifacts using median/IQR statistics over
the all-but-last-5 samples. -/
def trimTrailingArtifacts (samples : List Nat) : List Nat :=
  if samples.length < 15 then samples
  else
    let main_samples := samples.take (samples.length - 5)
    if main_samples.length < 10 then samples
    else
      let sorted_main := List.insertionSort (· ≤ ·) main_samples
      let nm := sorted_main.length
      let median := sorted_main.getD (nm / 2) 0
      let q1 := sorted_main.getD (nm / 4) 0
      let q3 := sorted_main.getD (3 * nm / 4) 0
      let iqr := if q3 > q1 then q3 - q1 else 50
      let n := samples.length
      match (samples.drop (n - 5)).findIdx? (trimOutlierB median iqr) with
      | some j => samples.take (n - 5 + j)
      | none =>
        let last_5 := samples.drop (n - 5)
        let last_range := listMaxN last_5 - listMinN last_5
        let main_range :=
          if 20 ≤ main_samples.length then
            listMaxN (main_samples.drop (main_samples.length - 20)) -
              listMinN (main_samples.drop (main_samples.length - 20))
          else iqr
        if last_range > main_range * 2 then
          match (samples.drop (n - 5)).findIdx? (trimDeviantB median iqr) with
          | some j => samples.take (n - 5 + j)
          | none => samples
        else samples

/-- Variant of the trimmer that follows the SPEC words for claim C8:
the interquartile range is floored at 50, i.e. the effective IQR is
max(q3 - q1, 50).  (The source instead uses q3 - q1 whenever q3 > q1.) -/
def trimTrailingSpecFloorIqr (samples : List Nat) : List Nat :=
  if samples.length < 15 then samples
  else
    let main_samples := samples.take (samples.length - 5)
    if main_samples.length < 10 then samples
    else
      let s := trimStats samples
      trimAfterStats samples s.1 (max (s.2.2 - s.2.1) 50)

/-- A decoded waveform block (src/models.py, PPGBlock).  `samples` is the
trimmed sample list, `samples_raw` the list as decoded.  The hw_* fields are
the optional device-precomputed values from the trailing metadata. -/
structure PPGBlock where
  label_byte : Nat
  samples_raw : List Nat
  samples : List Nat
  exam_number : Option Nat
  metadata_raw : List Nat
  hw_baseline : Option Nat
  hw_peak_index : Option Nat
  hw_end_index : Option Nat
  hw_amplitude : Option Nat
  hw_To_samples : Option Nat
  hw_Th_samples : Option Nat
  hw_Ti : Option Nat
  hw_Fo_x100 : Option Nat
  hw_flags : Option Nat
deriving DecidableEq

/-- Construct a PPGBlock as the PPGBlock constructor does: samples are the
raw samples with trailing-artifact trimming applied; hw fields start absent. -/
def mkPPGBlock (label_byte : Nat) (samples : List Nat) (exam_number : Option Nat)
    (metadata_raw : List Nat) : PPGBlock :=
  { label_byte := label_byte
    samples_raw := samples
    samples := trimTrailingArtifacts samples
    exam_number := exam_number
    metadata_raw := metadata_raw
    hw_baseline := none
    hw_peak_index := none
    hw_end_index := none
    hw_amplitude := none
    hw_To_samples := none
    hw_Th_samples := none
    hw_Ti := none
    hw_Fo_x100 := none
    hw_flags := none }

/-! ## Protocol decoder (src/protocol.py) -/

/-- Result of parsing one block (src/protocol.py, ParseResult). -/
structure ParseResult where
  block : Option PPGBlock
  bytes_consumed : Nat
  needs_more_data : Bool
deriving DecidableEq

/-- Index of the first ESC (0x1B) byte, if any (Python buffer.index(ESC)). -/
def firstEsc : List Nat → Option Nat
  | [] => none
  | x :: xs => if x = ESC then some 0 else (firstEsc xs).map (· + 1)

/-- Number of leading bytes before the first ESC (the whole length if none). -/
def skipToEsc : List Nat → Nat
  | [] => 0
  | x :: xs => if x = ESC then 0 else skipToEsc xs + 1

/-- Embedding of _is_valid_header: ESC + L + label + EOT + SOH + GS
(src/protocol.py lines 135-142). -/
def isValidHeader (buffer : List Nat) (pos : Nat) : Prop :=
  buffer.getD (pos + 1) 0 = 76 ∧
  buffer.getD (pos + 3) 0 = EOT ∧
  buffer.getD (pos + 4) 0 = SOH ∧
  buffer.getD (pos + 5) 0 = GSB

instance (buffer : List Nat) (pos : Nat) : Decidable (isValidHeader buffer pos) := by
  unfold isValidHeader; infer_instance

/-- Embedding of _has_next_block: an ESC within 30 bytes after `start`
(src/protocol.py lines 145-150). -/
def hasNextBlock (buffer : List Nat) (start : Nat) : Prop :=
  ESC ∈ (buffer.drop start).take 30

instance (buffer : List Nat) (start : Nat) : Decidable (hasNextBlock buffer start) := by
  unfold hasNextBlock; infer_instance

/-- Loop of _extract_samples: 16-bit little-endian samples from index i
(step 2) up to endp, guarded by i + 1 < length as in the source
(src/protocol.py lines 153-162). -/
def extractSamplesAux (buffer : List Nat) (endp : Nat) : Nat → Nat → List Nat
  | 0, _ => []
  | fuel + 1, i =>
    if i < endp then
      (if i + 1 < buffer.length then
        [Nat.lor (buffer.getD i 0) ((buffer.getD (i + 1) 0) <<< 8)]
      else []) ++ extractSamplesAux buffer endp fuel (i + 2)
    else []

/-- Embedding of _extract_samples (src/protocol.py lines 153-162). -/
def extractSamples (buffer : List Nat) (start endp : Nat) : List Nat :=
  extractSamplesAux buffer endp (endp - start + 1) start

/-- Scan loop of _extract_exam_number: look for 00 00 00 GS LL HH with
1 ≤ HHLL ≤ 9999; returns (exam number, payload start index)
(src/protocol.py lines 165-189). -/
def examScanAux (metadata : List Nat) : Nat → Nat → Option (Nat × Nat)
  | 0, _ => none
  | fuel + 1, i =>
    if i + 6 ≤ metadata.length then
      if metadata.getD i 0 = 0 ∧ metadata.getD (i + 1) 0 = 0 ∧
         metadata.getD (i + 2) 0 = 0 ∧ metadata.getD (i + 3) 0 = GSB then
        let exam_number := Nat.lor (metadata.getD (i + 4) 0) ((metadata.getD (i + 5) 0) <<< 8)
        if 1 ≤ exam_number ∧ exam_number ≤ 9999 then some (exam_number, i + 6)
        else examScanAux metadata fuel (i + 1)
      else examScanAux metadata fuel (i + 1)
    else none

/-- Embedding of _extract_exam_number (src/protocol.py lines 165-189). -/
def extractExamNumber (metadata : List Nat) : Option (Nat × Nat) :=
  examScanAux metadata (metadata.length + 1) 0

/-- Embedding of _extract_hw_metadata: fill the hw_* fields of a block from
the fixed 10-byte payload; sr = int(ESTIMATED_SAMPLING_RATE) = 4
(src/protocol.py lines 192-224). -/
def applyHwMetadata (block : PPGBlock) (payload : List Nat) : PPGBlock :=
  let peak_index := payload.getD 6 0 + 2 * 4 - 1
  { block with
    hw_To_samples := some (payload.getD 0 0)
    hw_Th_samples := some (payload.getD 1 0)
    hw_amplitude := some (Nat.lor (payload.getD 2 0) ((payload.getD 3 0) <<< 8))
    hw_Fo_x100 := some (Nat.lor (payload.getD 4 0) ((payload.getD 5 0) <<< 8))
    hw_peak_index := some peak_index
    hw_Ti := some (payload.getD 7 0)
    hw_flags := some (payload.getD 8 0)
    hw_end_index := some (peak_index + payload.getD 0 0) }

/-- Embedding of _find_next_block_start (src/protocol.py lines 227-232). -/
def findNextBlockStart (buffer : List Nat) (start : Nat) : Nat :=
  start + skipToEsc (buffer.drop start)

/-- Sample count of the block headed at esc_pos: little-endian u16 at
bytes 7 and 8 after the marker (src/protocol.py lines 84-86). -/
def numSamplesAt (buffer : List Nat) (esc_pos : Nat) : Nat :=
  Nat.lor (buffer.getD (esc_pos + 7) 0) ((buffer.getD (esc_pos + 8) 0) <<< 8)

/-- End of the sample payload of the block headed at esc_pos
(src/protocol.py lines 89-90). -/
def dataEndAt (buffer : List Nat) (esc_pos : Nat) : Nat :=
  esc_pos + 9 + numSamplesAt buffer esc_pos * 2

/-- Block construction part of _try_parse_block, once all completeness
checks have passed (src/protocol.py lines 103-127). -/
def buildBlock (buffer : List Nat) (esc_pos : Nat) : PPGBlock :=
  let label_byte := buffer.getD (esc_pos + 2) 0
  let data_start := esc_pos + 9
  let data_end := dataEndAt buffer esc_pos
  let samples := extractSamples buffer data_start data_end
  let metadata_raw := (buffer.drop data_end).take 40
  let exam_info := extractExamNumber metadata_raw
  let block0 := mkPPGBlock label_byte samples (exam_info.map Prod.fst) metadata_raw
  let block1 :=
    if 3 ≤ metadata_raw.length ∧ metadata_raw.getD 0 0 = GSB then
      let hwb := Nat.lor (metadata_raw.getD 1 0) ((metadata_raw.getD 2 0) <<< 8)
      { block0 with hw_baseline := some hwb }
    else block0
  match exam_info with
  | some p =>
    if p.2 + 10 ≤ metadata_raw.length then applyHwMetadata block1 (metadata_raw.drop p.2)
    else block1
  | none => block1

/-- Embedding of _try_parse_block (src/protocol.py lines 56-132). -/
def tryParseBlock (buffer : List Nat) : ParseResult :=
  match firstEsc buffer with
  | none => ⟨none, buffer.length, false⟩
  | some esc_pos =>
    if esc_pos + 10 > buffer.length then ⟨none, 0, true⟩
    else if ¬ isValidHeader buffer esc_pos then ⟨none, esc_pos + 1, false⟩
    else
      let data_end := dataEndAt buffer esc_pos
      if data_end > buffer.length then ⟨none, 0, true⟩
      else if ¬ hasNextBlock buffer data_end ∧ data_end + 10 > buffer.length then ⟨none, 0, true⟩
      else ⟨some (buildBlock buffer esc_pos), findNextBlockStart buffer data_end, false⟩

/-- Auxiliary list for the block returned by one parse step. -/
def optBlockList : Option PPGBlock → List PPGBlock
  | some b => [b]
  | none => []

/-- The while-loop of parse_buffer, with explicit fuel
(src/protocol.py lines 39-52): break on needs_more_data, append the block,
drop the consumed bytes, break when nothing was consumed. -/
def parseLoop : Nat → List Nat → List PPGBlock × List Nat
  | 0, remaining => ([], remaining)
  | fuel + 1, remaining =>
    let result := tryParseBlock remaining
    if result.needs_more_data then ([], remaining)
    else
      let bs := optBlockList result.block
      let remaining2 := remaining.drop result.bytes_consumed
      if result.bytes_consumed = 0 then (bs, remaining2)
      else
        let p := parseLoop fuel remaining2
        (bs ++ p.1, p.2)

/-- Embedding of parse_buffer (src/protocol.py lines 26-53).  The fuel
length+1 always suffices; see parseLoop_fuel_irrelevant. -/
def parse_buffer (buffer : List Nat) : List PPGBlock × List Nat :=
  parseLoop (buffer.length + 1) buffer

/-- Observable part of a block that is independent of the trailing metadata
window: channel label, raw samples, trimmed samples. -/
def obsB (b : PPGBlock) : Nat × List Nat × List Nat :=
  (b.label_byte, b.samples_raw, b.samples)

/-! ## Analysis engine (src/analysis.py) -/

/-- Sample list as rationals (np.array(block.samples, dtype=float)). -/
def toQ (samples : List Nat) : List ℚ :=
  samples.map (fun x => (x : ℚ))

/-- Maximum of a nonempty rational list (np.max; 0 on []). -/
def listMaxQ : List ℚ → ℚ
  | [] => 0
  | x :: xs => xs.foldl max x

/-- First index of the maximum, tracking the best value seen so far. -/
def argmaxQAux : List ℚ → Nat → ℚ → Nat → Nat
  | [], _, _, best => best
  | x :: xs, i, bv, best =>
    if bv < x then argmaxQAux xs (i + 1) x i else argmaxQAux xs (i + 1) bv best

/-- np.argmax: index of the first occurrence of the maximum (0 on []). -/
def argmaxQ : List ℚ → Nat
  | [] => 0
  | x :: xs => argmaxQAux xs 1 x 0

/-- np.median: middle element of the sorted list, or the mean of the two
middle elements for an even length. -/
def medianQ (l : List ℚ) : ℚ :=
  let s := List.insertionSort (· ≤ ·) l
  let n := s.length
  if n % 2 = 1 then s.getD (n / 2) 0
  else (s.getD (n / 2 - 1) 0 + s.getD (n / 2) 0) / 2

/-- np.convolve(l, np.ones(w)/w, mode=valid): sliding mean of width w. -/
def movingAvg (l : List ℚ) (w : Nat) : List ℚ :=
  (List.range (l.length + 1 - w)).map (fun j => ((l.drop j).take w).sum / (w : ℚ))

/-- Software peak detection, the else-branch of step 2 of
calculate_parameters (src/analysis.py lines 74-108).  int(len * 0.1) and
int(len * 0.9) are modelled as len / 10 and 9 * len / 10;
int(25 * sr) = 100. -/
def softwarePeak (samples : List ℚ) (initial_baseline : ℚ) : Option Nat :=
  let window := 5
  let global_max := listMaxQ samples
  let estimated_amplitude := global_max - initial_baseline
  let estimated_vo := if 0 < initial_baseline then estimated_amplitude / initial_baseline * 100 else 0
  let exercise_start := 5
  let exercise_end := min 100 (samples.length - 10)
  if exercise_end ≤ exercise_start then none
  else if estimated_vo < 3 then
    let peak_idx := exercise_start +
      argmaxQ ((samples.drop exercise_start).take (exercise_end - exercise_start))
    some (min peak_idx (samples.length - 1))
  else
    let so := if window < samples.length then (movingAvg samples window, (window - 1) / 2)
              else (samples, 0)
    let smoothed := so.1
    let offset := so.2
    let search_start := max 10 (smoothed.length / 10)
    let search_end := 9 * smoothed.length / 10
    if search_end ≤ search_start then none
    else
      let peak_idx_smooth :=
        argmaxQ ((smoothed.drop search_start).take (search_end - search_start)) + search_start
      some (min (peak_idx_smooth + offset) (samples.length - 1))

/-- Loop of _find_crossing over i in range(len - 1)
(src/analysis.py lines 358-384). -/
def findCrossingAux (samples : List ℚ) (level : ℚ) (down : Bool) : Nat → Nat → Option ℚ
  | 0, _ => none
  | fuel + 1, i =>
    if i + 1 < samples.length then
      if down then
        if samples.getD i 0 ≥ level ∧ samples.getD (i + 1) 0 < level then
          some ((i : ℚ) + (samples.getD i 0 - level) / (samples.getD i 0 - samples.getD (i + 1) 0))
        else findCrossingAux samples level down fuel (i + 1)
      else
        if samples.getD i 0 ≤ level ∧ samples.getD (i + 1) 0 > level then
          some ((i : ℚ) + (level - samples.getD i 0) / (samples.getD (i + 1) 0 - samples.getD i 0))
        else findCrossingAux samples level down fuel (i + 1)
    else none

/-- Embedding of _find_crossing: fractional index of the first
threshold crossing (src/analysis.py lines 358-384). -/
def findCrossing (samples : List ℚ) (level : ℚ) (down : Bool) : Option ℚ :=
  findCrossingAux samples level down samples.length 0

/-- Look-ahead target index of _calculate_ti: peak + int(window * sr),
shrunk to the last sample if out of range (src/analysis.py lines 266-287). -/
def tiTargetIdx (samples : List ℚ) (peak_idx : Nat) (peak_value : ℚ) (sr : ℚ) : Nat :=
  let delta_3sec := peak_value - samples.getD (peak_idx + (⌊3 * sr⌋).toNat) 0
  let window_periods : ℚ := if delta_3sec ≥ 10 then 3 else 6
  let target0 := peak_idx + (⌊window_periods * sr⌋).toNat
  if target0 ≥ samples.length then samples.length - 1 else target0

/-- Embedding of _calculate_ti: adaptive linear extrapolation of the early
recovery slope, capped at 120 s (src/analysis.py lines 236-303). -/
def calculateTi (samples : List ℚ) (peak_idx : Nat) (peak_value baseline : ℚ) (sr : ℚ) :
    Option ℚ :=
  let amplitude := peak_value - baseline
  if amplitude ≤ 0 then none
  else
    let offset_3sec := peak_idx + (⌊3 * sr⌋).toNat
    if offset_3sec ≥ samples.length then none
    else
      let delta_3sec := peak_value - samples.getD offset_3sec 0
      let window_periods : ℚ := if delta_3sec ≥ 10 then 3 else 6
      let target0 := peak_idx + (⌊window_periods * sr⌋).toNat
      let target_idx := tiTargetIdx samples peak_idx peak_value sr
      let wp := if target0 ≥ samples.length then ((target_idx : ℚ) - (peak_idx : ℚ)) / sr
                else window_periods
      let denominator := peak_value - samples.getD target_idx 0
      if denominator ≤ 0 then some 120
      else
        let Ti0 := wp * amplitude / denominator
        some (if 120 < Ti0 then 120 else Ti0)

/-- Embedding of _calculate_fo: trapezoid-corrected integral of the recovery
curve above baseline, normalised to percent-seconds
(src/analysis.py lines 306-355). -/
def calculateFo (samples : List ℚ) (peak_idx end_idx : Nat) (baseline : ℚ) (sr : ℚ) : ℚ :=
  if end_idx ≤ peak_idx ∨ baseline ≤ 0 then 0
  else
    let end2 := min end_idx (samples.length - 1)
    let segment := (samples.drop peak_idx).take (end2 - peak_idx)
    let area := (segment.map (fun x => x - baseline)).sum
    let last_excess := samples.getD end2 0 - baseline
    let n_samples := end2 - peak_idx
    let correction := last_excess * (n_samples : ℚ) / 2
    let adjusted := area - correction
    max (adjusted * 100 / (baseline * sr)) 0

/-- Number of trailing samples used by _extrapolate_crossing to estimate the
slope: min(EXTRAPOLATION_FIT_SAMPLES = 10, n / 2), then at least 5
(src/analysis.py lines 407-408). -/
def nFit (n : Nat) : Nat :=
  max (min 10 (n / 2)) 5

/-- Slope used by _extrapolate_crossing: (last - first) / (n_fit - 1) over
the last n_fit samples (src/analysis.py lines 410-413). -/
def extraSlope (samples : List ℚ) : ℚ :=
  let n_fit := nFit samples.length
  let last_samples := samples.drop (samples.length - n_fit)
  (last_samples.getD (n_fit - 1) 0 - last_samples.getD 0 0) / ((n_fit : ℚ) - 1)

/-- Embedding of _extrapolate_crossing (src/analysis.py lines 387-431).
MAX_EXTRAPOLATION_TIME * ESTIMATED_SAMPLING_RATE = 120 * 4 = 480 samples. -/
def extrapolateCrossing (samples : List ℚ) (level : ℚ) : Option ℚ :=
  if samples.length < 10 then none
  else
    let slope := extraSlope samples
    if slope ≥ 0 then some 480
    else
      let last_value := samples.getD (samples.length - 1) 0
      let remaining := last_value - level
      if remaining ≤ 0 then some ((samples.length : ℚ) - 1)
      else
        let crossing_idx := ((samples.length : ℚ) - 1) + remaining / |slope|
        some (if 480 < crossing_idx then 480 else crossing_idx)

/-- Variant of _extrapolate_crossing that follows the SPEC words for claim
C7: the slope is computed from the last max(round(0.2 * n), 10) samples
clamped above by the configured fit window 10 — hence always exactly the
last 10 samples. -/
def extrapolateCrossingSpecTen (samples : List ℚ) (level : ℚ) : Option ℚ :=
  if samples.length < 10 then none
  else
    let n_fit := 10
    let last_samples := samples.drop (samples.length - n_fit)
    let slope := (last_samples.getD (n_fit - 1) 0 - last_samples.getD 0 0) / ((n_fit : ℚ) - 1)
    if slope ≥ 0 then some 480
    else
      let last_value := samples.getD (samples.length - 1) 0
      let remaining := last_value - level
      if remaining ≤ 0 then some ((samples.length : ℚ) - 1)
      else
        let crossing_idx := ((samples.length : ℚ) - 1) + remaining / |slope|
        some (if 480 < crossing_idx then 480 else crossing_idx)

/-- Embedding of the guards of _calculate_tau (src/analysis.py lines
434-486).  The scipy nonlinear fit itself is external library code and is
modelled as a non-converging fit, which the source maps to None; no claim
depends on the tau field. -/
def calculateTau (samples : List ℚ) (peak_idx end_idx : Nat) (baseline peak_value : ℚ) :
    Option ℚ :=
  if end_idx ≤ peak_idx then none
  else
    let segment := (samples.drop peak_idx).take (end_idx + 1 - peak_idx)
    if segment.length < 10 then none
    else
      let A0 := peak_value - baseline
      if A0 ≤ 0 then none
      else none

/-- Python round to the nearest integer with ties to even (model of the
float round over exact rationals). -/
def pyRound (q : ℚ) : ℤ :=
  if q - ⌊q⌋ < 1/2 then ⌊q⌋
  else if 1/2 < q - ⌊q⌋ then ⌊q⌋ + 1
  else if ⌊q⌋ % 2 = 0 then ⌊q⌋ else ⌊q⌋ + 1

/-- Python round(x, 1). -/
def roundTo1 (q : ℚ) : ℚ :=
  (pyRound (10 * q) : ℚ) / 10

/-- Python round(x, 0). -/
def roundTo0 (q : ℚ) : ℚ :=
  (pyRound q : ℚ)

/-- has_hw of calculate_parameters: hardware baseline, peak index and
amplitude are all present (src/analysis.py lines 52-56). -/
def hasHw (block : PPGBlock) : Prop :=
  block.hw_baseline.isSome = true ∧ block.hw_peak_index.isSome = true ∧
    block.hw_amplitude.isSome = true

instance (block : PPGBlock) : Decidable (hasHw block) := by
  unfold hasHw; infer_instance

/-- Loop locating the exercise start: first index before the peak whose
sample reaches the threshold; 0 if none (src/analysis.py lines 210-214). -/
def exerciseStartAux (samples : List ℚ) (threshold : ℚ) (peak_idx : Nat) : Nat → Nat → Nat
  | 0, _ => 0
  | fuel + 1, i =>
    if i < peak_idx then
      if samples.getD i 0 ≥ threshold then i
      else exerciseStartAux samples threshold peak_idx fuel (i + 1)
    else 0

/-- Exercise start index (src/analysis.py lines 209-214). -/
def exerciseStart (samples : List ℚ) (peak_idx : Nat) (threshold : ℚ) : Nat :=
  exerciseStartAux samples threshold peak_idx peak_idx 0

/-- Condition under which the hardware Ti value is used
(src/analysis.py line 152). -/
def hwTiUsed (block : PPGBlock) : Prop :=
  hasHw block ∧ block.hw_Ti.isSome = true ∧ 0 < block.hw_Ti.getD 0

instance (block : PPGBlock) : Decidable (hwTiUsed block) := by
  unfold hwTiUsed; infer_instance

/-- Condition under which the hardware To value is used
(src/analysis.py line 161). -/
def hwToUsed (block : PPGBlock) : Prop :=
  hasHw block ∧ block.hw_To_samples.isSome = true ∧ 0 < block.hw_To_samples.getD 0

instance (block : PPGBlock) : Decidable (hwToUsed block) := by
  unfold hwToUsed; infer_instance

/-- The sample array of calculate_parameters (src/analysis.py line 46). -/
def cpSamples (block : PPGBlock) : List ℚ :=
  toQ block.samples

/-- initial_baseline (src/analysis.py lines 61-64). -/
def cpInitialBaseline (block : PPGBlock) : ℚ :=
  if hasHw block then ((block.hw_baseline.getD 0 : Nat) : ℚ)
  else medianQ ((cpSamples block).take 10)

/-- stable_baseline = median of the last 20 samples (src/analysis.py line 66). -/
def cpStableBaseline (block : PPGBlock) : ℚ :=
  medianQ ((cpSamples block).drop ((cpSamples block).length - 20))

/-- Peak index: hardware peak when available and in range, else software
detection (src/analysis.py lines 71-108). -/
def cpPeakOpt (block : PPGBlock) : Option Nat :=
  if hasHw block ∧ block.hw_peak_index.getD 0 < (cpSamples block).length then
    some (block.hw_peak_index.getD 0)
  else softwarePeak (cpSamples block) (cpInitialBaseline block)

/-- peak_value = samples[peak_idx] (src/analysis.py lines 73 and 108). -/
def cpPeakValue (block : PPGBlock) (peak_idx : Nat) : ℚ :=
  (cpSamples block).getD peak_idx 0

/-- amplitude_vo (src/analysis.py lines 113-116). -/
def cpAmplitudeVo (block : PPGBlock) (peak_idx : Nat) : ℚ :=
  if hasHw block ∧ 0 < block.hw_amplitude.getD 0 then ((block.hw_amplitude.getD 0 : Nat) : ℚ)
  else cpPeakValue block peak_idx - cpInitialBaseline block

/-- Vo = amplitude_vo / initial_baseline * 100 (src/analysis.py line 121). -/
def cpVo (block : PPGBlock) (peak_idx : Nat) : ℚ :=
  cpAmplitudeVo block peak_idx / cpInitialBaseline block * 100

/-- recovery_samples = samples[peak_idx:] (src/analysis.py lines 129-130). -/
def cpRecovery (block : PPGBlock) (peak_idx : Nat) : List ℚ :=
  (cpSamples block).drop peak_idx

/-- Th in seconds; sample_time = 1/4 (src/analysis.py lines 140-147). -/
def cpTh (block : PPGBlock) (peak_idx : Nat) : ℚ :=
  if hasHw block ∧ block.hw_Th_samples.isSome = true ∧ 0 < block.hw_Th_samples.getD 0 then
    ((block.hw_Th_samples.getD 0 : Nat) : ℚ) * (1/4)
  else
    (match findCrossing (cpRecovery block peak_idx)
        (cpInitialBaseline block + cpAmplitudeVo block peak_idx * (1/2)) true with
     | some v => v
     | none => ((cpRecovery block peak_idx).length : ℚ) - 1) * (1/4)

/-- Ti in seconds (src/analysis.py lines 152-155). -/
def cpTiOpt (block : PPGBlock) (peak_idx : Nat) : Option ℚ :=
  if hwTiUsed block then some ((block.hw_Ti.getD 0 : Nat) : ℚ)
  else calculateTi (cpSamples block) peak_idx (cpPeakValue block peak_idx)
    (cpInitialBaseline block) 4

/-- Threshold for the To crossing, with the fallback to the initial baseline
when the reference amplitude is non-positive (src/analysis.py lines 165-172). -/
def cpLevelTo (block : PPGBlock) (peak_idx : Nat) : ℚ :=
  let reference_baseline := max (cpStableBaseline block) (cpInitialBaseline block)
  let amplitude_ref := cpPeakValue block peak_idx - reference_baseline
  let rb := if amplitude_ref ≤ 0 then cpInitialBaseline block else reference_baseline
  let ar := if amplitude_ref ≤ 0 then cpAmplitudeVo block peak_idx else amplitude_ref
  rb + ar * (3/100)

/-- To_samples_val: hardware sample count, or crossing with extrapolation
fallback (src/analysis.py lines 161-175). -/
def cpToSamplesOpt (block : PPGBlock) (peak_idx : Nat) : Option ℚ :=
  if hwToUsed block then some ((block.hw_To_samples.getD 0 : Nat) : ℚ)
  else
    match findCrossing (cpRecovery block peak_idx) (cpLevelTo block peak_idx) true with
    | some v => some v
    | none => extrapolateCrossing (cpRecovery block peak_idx) (cpLevelTo block peak_idx)

/-- To in seconds.  In the software path the source converts with Python
truthiness — To_samples_val equal to 0.0 yields None (src/analysis.py
lines 163 and 176). -/
def cpToOpt (block : PPGBlock) (peak_idx : Nat) : Option ℚ :=
  if hwToUsed block then (cpToSamplesOpt block peak_idx).map (fun v => v * (1/4))
  else
    match cpToSamplesOpt block peak_idx with
    | some v => if v = 0 then none else some (v * (1/4))
    | none => none

/-- End index for the Fo integration (src/analysis.py lines 190-196). -/
def cpFoEndIdx (block : PPGBlock) (peak_idx : Nat) : Nat :=
  if hasHw block ∧ block.hw_To_samples.isSome = true then
    peak_idx + block.hw_To_samples.getD 0
  else
    match cpToSamplesOpt block peak_idx with
    | some v => peak_idx + (⌊v⌋).toNat
    | none => (cpSamples block).length - 1

/-- Fo (src/analysis.py lines 187-197). -/
def cpFo (block : PPGBlock) (peak_idx : Nat) : ℚ :=
  if hasHw block ∧ block.hw_Fo_x100.isSome = true ∧ 0 < block.hw_Fo_x100.getD 0 then
    ((block.hw_Fo_x100.getD 0 : Nat) : ℚ) / 100
  else
    calculateFo (cpSamples block) peak_idx
      (min (cpFoEndIdx block peak_idx) ((cpSamples block).length - 1))
      (cpInitialBaseline block) 4

/-- To_end_index (src/analysis.py lines 202-207). -/
def cpToEndIndex (block : PPGBlock) (peak_idx : Nat) : Nat :=
  if hasHw block ∧ block.hw_end_index.isSome = true then
    min (block.hw_end_index.getD 0) ((cpSamples block).length - 1)
  else
    match cpToSamplesOpt block peak_idx with
    | some v => min (peak_idx + (⌊v⌋).toNat) ((cpSamples block).length - 1)
    | none => (cpSamples block).length - 1

/-- exercise_start_index (src/analysis.py lines 209-214). -/
def cpExerciseStart (block : PPGBlock) (peak_idx : Nat) : Nat :=
  exerciseStart (cpSamples block) peak_idx
    (cpInitialBaseline block + cpAmplitudeVo block peak_idx * (1/10))

/-- tau (src/analysis.py line 219). -/
def cpTau (block : PPGBlock) (peak_idx : Nat) : Option ℚ :=
  calculateTau (cpSamples block) peak_idx (cpToEndIndex block peak_idx)
    (cpInitialBaseline block) (cpPeakValue block peak_idx)

/-- Embedding of calculate_parameters (src/analysis.py lines 33-233),
assembled from the staged definitions above, each of which names one local
of the source function. -/
def calculate_parameters (block : PPGBlock) : Option PPGParameters :=
  if (cpSamples block).length < 40 then none
  else
    match cpPeakOpt block with
    | none => none
    | some peak_idx =>
      if cpAmplitudeVo block peak_idx ≤ 0 ∨ cpInitialBaseline block ≤ 0 then none
      else if cpVo block peak_idx < 1/2 then none
      else if (cpRecovery block peak_idx).length < 10 then none
      else
        match cpToOpt block peak_idx, cpTiOpt block peak_idx with
        | some To, some Ti =>
          if To ≤ 0 ∨ cpTh block peak_idx ≤ 0 ∨ Ti ≤ 0 then none
          else
            some { To := roundTo1 To
                   Th := roundTo1 (cpTh block peak_idx)
                   Ti := roundTo0 Ti
                   Vo := roundTo1 (cpVo block peak_idx)
                   Fo := roundTo0 (cpFo block peak_idx)
                   tau := cpTau block peak_idx
                   peak_index := peak_idx
                   To_end_index := cpToEndIndex block peak_idx
                   exercise_start_index := cpExerciseStart block peak_idx
                   baseline_value := cpInitialBaseline block
                   peak_value := cpPeakValue block peak_idx }
        | _, _ => none

/-! ## Concrete inputs used by counterexamples and witnesses -/

/-- A block with no hardware metadata at all. -/
def swBlock (label : Nat) (samples : List Nat) : PPGBlock :=
  ⟨label, samples, samples, none, [], none, none, none, none, none, none, none, none, none⟩

/-- 40 samples: baseline 1000 for 10 samples, one peak 1010, then 800.
The trimmer leaves this list unchanged, so the block is reachable. -/
def c2Samples : List Nat :=
  List.replicate 10 1000 ++ [1010] ++ List.replicate 29 800

/-- Block driving the C2 counterexample. -/
def c2Block : PPGBlock :=
  swBlock 225 c2Samples

/-- 40 flat samples with full hardware metadata and hw_Ti = 200. -/
def c6Block : PPGBlock :=
  ⟨225, List.replicate 40 100, List.replicate 40 100, none, [], some 50, some 5, some 13,
    some 500, some 8, some 4, some 200, some 100, some 0⟩

/-- Same as c6Block but with the hardware Ti absent, forcing the software
Ti path. -/
def c6SwTiBlock : PPGBlock :=
  ⟨225, List.replicate 40 100, List.replicate 40 100, none, [], some 50, some 5, some 13,
    some 500, some 8, some 4, none, some 100, some 0⟩

/-- 40 flat samples with full hardware metadata (hw_Ti = 10),
for the C10 counterexample. -/
def c10Block : PPGBlock :=
  ⟨225, List.replicate 40 100, List.replicate 40 100, none, [], some 50, some 5, some 13,
    some 500, some 8, some 4, some 10, some 100, some 0⟩

/-- A complete zero-sample frame followed by 16 metadata bytes whose exam-id
pattern 00 00 00 GS 01 00 sits at metadata offset 5. -/
def c1Buf : List Nat :=
  [27, 76, 225, 4, 1, 29, 0, 0, 0] ++ [9, 9, 9, 9, 9, 0, 0, 0, 29, 1, 0, 7, 7, 7, 7, 7]

/-- First half of c1Buf: the frame plus only 10 metadata bytes, which cuts
the exam-id pattern. -/
def c1Xs : List Nat :=
  c1Buf.take 19

/-- Second half of c1Buf. -/
def c1Ys : List Nat :=
  c1Buf.drop 19

/-- 15 samples whose main part has median 104, q1 = 100, q3 = 104, hence an
IQR of 4 (strictly between 0 and 50), and whose last value 120 is an outlier
for IQR 4 but not for IQR 50. -/
def c8List : List Nat :=
  [100, 100, 100, 100, 100, 104, 104, 104, 104, 104, 100, 100, 100, 100, 120]

/-- 20 samples for which trimming is not idempotent: the first pass removes
the trailing 500, the second pass then removes the 300 that has entered the
last-5 window. -/
def c9List : List Nat :=
  List.replicate 10 100 ++ [300] ++ List.replicate 4 100 ++ [500] ++ List.replicate 4 100

/-- 10 recovery samples whose last-10 slope is negative but whose last-5
slope is positive. -/
def c7List : List ℚ :=
  [100, 0, 0, 0, 0, 0, 0, 0, 0, 50]

/-- 10 flat recovery samples (slope 0), for the C7 witness. -/
def c7Flat : List ℚ :=
  List.replicate 10 100

/-- The exact result of calculate_parameters on c6Block. -/
def c6Params : PPGParameters :=
  ⟨2, 1, 200, 1000, 1, none, 5, 13, 0, 50, 100⟩

/-- The exact result of calculate_parameters on c6SwTiBlock. -/
def c6SwTiParams : PPGParameters :=
  ⟨2, 1, 120, 1000, 1, none, 5, 13, 0, 50, 100⟩

/-- The exact result of calculate_parameters on c10Block. -/
def c10Params : PPGParameters :=
  ⟨2, 1, 10, 1000, 1, none, 5, 13, 0, 50, 100⟩

/-- The exact result of calculate_parameters on c2Block: the rounded To, Th
and Ti fields are all exactly 0. -/
def c2Params : PPGParameters :=
  ⟨0, 0, 0, 1, 0, none, 10, 10, 0, 1000, 1010⟩

/-! ## Exception-instrumented (checked) variants for claim C5

Each definition below mirrors its unchecked counterpart statement by
statement, but returns `none` exactly where the Python source would raise:
an out-of-range index access (`List.get?` instead of `getD`), a division
whose divisor is zero (`divQC`), or `np.max`/`np.argmax`/`np.median` on an
empty array.  A value the source computes normally is wrapped in `some`; a
path on which the source returns None yields `some none`.  Proving each
checked variant equal to `some` of the unchecked one shows the source never
reaches an unguarded partial operation. -/

/-- Checked division: none on a zero divisor (Python ZeroDivisionError). -/
def divQC (a b : ℚ) : Option ℚ :=
  if b = 0 then none else some (a / b)

/-- Checked Python max over naturals: none on an empty list. -/
def listMaxNC : List Nat → Option Nat
  | [] => none
  | x :: xs => some (xs.foldl max x)

/-- Checked Python min over naturals: none on an empty list. -/
def listMinNC : List Nat → Option Nat
  | [] => none
  | x :: xs => some (xs.foldl min x)

/-- Checked np.max: none on an empty array. -/
def listMaxQC : List ℚ → Option ℚ
  | [] => none
  | x :: xs => some (xs.foldl max x)

/-- Checked np.argmax: none on an empty array (ValueError in numpy). -/
def argmaxQC : List ℚ → Option Nat
  | [] => none
  | x :: xs => some (argmaxQAux xs 1 x 0)

/-- Checked np.median: every index access into the sorted list is a
`List.get?`. -/
def medianQC (l : List ℚ) : Option ℚ :=
  let s := List.insertionSort (· ≤ ·) l
  let n := s.length
  if n % 2 = 1 then s.get? (n / 2)
  else
    match s.get? (n / 2 - 1), s.get? (n / 2) with
    | some a, some b => some ((a + b) / 2)
    | _, _ => none

/-- Checked quartile statistics of the trimmer (src/models.py lines 133-137):
the three accesses into the sorted list are checked. -/
def trimStatsC (samples : List Nat) : Option (Nat × Nat × Nat) :=
  let main_samples := samples.take (samples.length - 5)
  let sorted_main := List.insertionSort (· ≤ ·) main_samples
  let nm := sorted_main.length
  match sorted_main.get? (nm / 2), sorted_main.get? (nm / 4), sorted_main.get? (3 * nm / 4) with
  | some m, some q1, some q3 => some (m, q1, q3)
  | _, _, _ => none

/-- Checked decision part of the trimmer (src/models.py lines 140-165): the
max/min reductions over the trailing windows are checked. -/
def trimAfterStatsC (samples : List Nat) (median iqr : Nat) : Option (List Nat) :=
  let n := samples.length
  let main_samples := samples.take (n - 5)
  match (samples.drop (n - 5)).findIdx? (trimOutlierB median iqr) with
  | some j => some (samples.take (n - 5 + j))
  | none =>
    let last_5 := samples.drop (n - 5)
    match listMaxNC last_5, listMinNC last_5 with
    | some mx5, some mn5 =>
      let last_range := mx5 - mn5
      match (if 20 ≤ main_samples.length then
              match listMaxNC (main_samples.drop (main_samples.length - 20)),
                    listMinNC (main_samples.drop (main_samples.length - 20)) with
              | some a, some b => some (a - b)
              | _, _ => none
             else some iqr) with
      | none => none
      | some main_range =>
        if last_range > main_range * 2 then
          match (samples.drop (n - 5)).findIdx? (trimDeviantB median iqr) with
          | some j => some (samples.take (n - 5 + j))
          | none => some samples
        else some samples
    | _, _ => none

/-- Checked PPGBlock._trim_trailing_artifacts (src/models.py lines 111-165). -/
def trimTrailingArtifactsC (samples : List Nat) : Option (List Nat) :=
  if samples.length < 15 then some samples
  else
    let main_samples := samples.take (samples.length - 5)
    if main_samples.length < 10 then some samples
    else
      match trimStatsC samples with
      | none => none
      | some s =>
        trimAfterStatsC samples s.1 (if s.2.1 < s.2.2 then s.2.2 - s.2.1 else 50)

/-- Checked PPGBlock constructor (src/models.py lines 73-109). -/
def mkPPGBlockC (label_byte : Nat) (samples : List Nat) (exam_number : Option Nat)
    (metadata_raw : List Nat) : Option PPGBlock :=
  (trimTrailingArtifactsC samples).map (fun trimmed =>
    { label_byte := label_byte
      samples_raw := samples
      samples := trimmed
      exam_number := exam_number
      metadata_raw := metadata_raw
      hw_baseline := none
      hw_peak_index := none
      hw_end_index := none
      hw_amplitude := none
      hw_To_samples := none
      hw_Th_samples := none
      hw_Ti := none
      hw_Fo_x100 := none
      hw_flags := none })

/-- Checked _is_valid_header (src/protocol.py lines 135-142): the four header
byte reads are checked. -/
def isValidHeaderC (buffer : List Nat) (pos : Nat) : Option Bool :=
  match buffer.get? (pos + 1), buffer.get? (pos + 3), buffer.get? (pos + 4),
        buffer.get? (pos + 5) with
  | some b1, some b3, some b4, some b5 =>
    some (if b1 = 76 ∧ b3 = EOT ∧ b4 = SOH ∧ b5 = GSB then true else false)
  | _, _, _, _ => none

/-- Checked size-field read of _try_parse_block (src/protocol.py lines 84-86). -/
def numSamplesAtC (buffer : List Nat) (esc_pos : Nat) : Option Nat :=
  match buffer.get? (esc_pos + 7), buffer.get? (esc_pos + 8) with
  | some lo, some hi => some (Nat.lor lo (hi <<< 8))
  | _, _ => none

/-- Checked loop of _extract_samples (src/protocol.py lines 153-162): the two
byte reads are checked; the source guards them with i + 1 < len(buffer). -/
def extractSamplesAuxC (buffer : List Nat) (endp : Nat) : Nat → Nat → Option (List Nat)
  | 0, _ => some []
  | fuel + 1, i =>
    if i < endp then
      if i + 1 < buffer.length then
        match buffer.get? i, buffer.get? (i + 1), extractSamplesAuxC buffer endp fuel (i + 2) with
        | some lo, some hi, some rest => some (Nat.lor lo (hi <<< 8) :: rest)
        | _, _, _ => none
      else extractSamplesAuxC buffer endp fuel (i + 2)
    else some []

/-- Checked scan loop of _extract_exam_number (src/protocol.py lines 165-189):
the six metadata byte reads are checked; the range bound of the source
guarantees i + 6 <= len(metadata). -/
def examScanAuxC (metadata : List Nat) : Nat → Nat → Option (Option (Nat × Nat))
  | 0, _ => some none
  | fuel + 1, i =>
    if i + 6 ≤ metadata.length then
      match metadata.get? i, metadata.get? (i + 1), metadata.get? (i + 2),
            metadata.get? (i + 3), metadata.get? (i + 4), metadata.get? (i + 5) with
      | some m0, some m1, some m2, some m3, some m4, some m5 =>
        if m0 = 0 ∧ m1 = 0 ∧ m2 = 0 ∧ m3 = GSB then
          let exam_number := Nat.lor m4 (m5 <<< 8)
          if 1 ≤ exam_number ∧ exam_number ≤ 9999 then some (some (exam_number, i + 6))
          else examScanAuxC metadata fuel (i + 1)
        else examScanAuxC metadata fuel (i + 1)
      | _, _, _, _, _, _ => none
    else some none

/-- Checked _extract_hw_metadata (src/protocol.py lines 192-224): the nine
payload byte reads are checked; the caller guarantees 10 payload bytes. -/
def applyHwMetadataC (block : PPGBlock) (payload : List Nat) : Option PPGBlock :=
  match payload.get? 0, payload.get? 1, payload.get? 2, payload.get? 3, payload.get? 4,
        payload.get? 5, payload.get? 6, payload.get? 7, payload.get? 8 with
  | some p0, some p1, some p2, some p3, some p4, some p5, some p6, some p7, some p8 =>
    let peak_index := p6 + 2 * 4 - 1
    some { block with
      hw_To_samples := some p0
      hw_Th_samples := some p1
      hw_amplitude := some (Nat.lor p2 (p3 <<< 8))
      hw_Fo_x100 := some (Nat.lor p4 (p5 <<< 8))
      hw_peak_index := some peak_index
      hw_Ti := some p7
      hw_flags := some p8
      hw_end_index := some (peak_index + p0) }
  | _, _, _, _, _, _, _, _, _ => none

/-- Checked hw_baseline extraction of _try_parse_block (src/protocol.py
lines 115-117, 123-124): the three metadata byte reads are checked; the
short-circuit of the Python `and` makes the reads conditional on the
length test. -/
def hwBaselineStepC (block0 : PPGBlock) (metadata_raw : List Nat) : Option PPGBlock :=
  if 3 ≤ metadata_raw.length then
    match metadata_raw.get? 0 with
    | none => none
    | some m0 =>
      if m0 = GSB then
        match metadata_raw.get? 1, metadata_raw.get? 2 with
        | some m1, some m2 => some { block0 with hw_baseline := some (Nat.lor m1 (m2 <<< 8)) }
        | _, _ => none
      else some block0
  else some block0

/-- Checked block construction of _try_parse_block
(src/protocol.py lines 81-127). -/
def buildBlockC (buffer : List Nat) (esc_pos : Nat) : Option PPGBlock :=
  match buffer.get? (esc_pos + 2), numSamplesAtC buffer esc_pos with
  | some label_byte, some ns =>
    let data_start := esc_pos + 9
    let data_end := esc_pos + 9 + ns * 2
    match extractSamplesAuxC buffer data_end (data_end - data_start + 1) data_start with
    | none => none
    | some samples =>
      let metadata_raw := (buffer.drop data_end).take 40
      match examScanAuxC metadata_raw (metadata_raw.length + 1) 0 with
      | none => none
      | some exam_info =>
        match mkPPGBlockC label_byte samples (exam_info.map Prod.fst) metadata_raw with
        | none => none
        | some block0 =>
          match hwBaselineStepC block0 metadata_raw with
          | none => none
          | some block1 =>
            match exam_info with
            | some p =>
              if p.2 + 10 ≤ metadata_raw.length then
                applyHwMetadataC block1 (metadata_raw.drop p.2)
              else some block1
            | none => some block1
  | _, _ => none

/-- Checked _try_parse_block (src/protocol.py lines 56-132). -/
def tryParseBlockC (buffer : List Nat) : Option ParseResult :=
  match firstEsc buffer with
  | none => some ⟨none, buffer.length, false⟩
  | some esc_pos =>
    if esc_pos + 10 > buffer.length then some ⟨none, 0, true⟩
    else
      match isValidHeaderC buffer esc_pos with
      | none => none
      | some valid =>
        if valid = false then some ⟨none, esc_pos + 1, false⟩
        else
          match numSamplesAtC buffer esc_pos with
          | none => none
          | some ns =>
            let data_end := esc_pos + 9 + ns * 2
            if data_end > buffer.length then some ⟨none, 0, true⟩
            else if ¬ hasNextBlock buffer data_end ∧ data_end + 10 > buffer.length then
              some ⟨none, 0, true⟩
            else
              match buildBlockC buffer esc_pos with
              | none => none
              | some blk => some ⟨some blk, findNextBlockStart buffer data_end, false⟩

/-- Checked while-loop of parse_buffer (src/protocol.py lines 39-52). -/
def parseLoopC : Nat → List Nat → Option (List PPGBlock × List Nat)
  | 0, remaining => some ([], remaining)
  | fuel + 1, remaining =>
    match tryParseBlockC remaining with
    | none => none
    | some result =>
      if result.needs_more_data then some ([], remaining)
      else
        let bs := optBlockList result.block
        let remaining2 := remaining.drop result.bytes_consumed
        if result.bytes_consumed = 0 then some (bs, remaining2)
        else
          match parseLoopC fuel remaining2 with
          | none => none
          | some p => some (bs ++ p.1, p.2)

/-- Checked parse_buffer (src/protocol.py lines 26-53). -/
def parse_bufferC (buffer : List Nat) : Option (List PPGBlock × List Nat) :=
  parseLoopC (buffer.length + 1) buffer

/-- Checked software peak detection (src/analysis.py lines 74-108): np.max,
np.argmax and the estimated-Vo division are checked. -/
def softwarePeakC (samples : List ℚ) (initial_baseline : ℚ) : Option (Option Nat) :=
  let window := 5
  match listMaxQC samples with
  | none => none
  | some global_max =>
    let estimated_amplitude := global_max - initial_baseline
    match (if 0 < initial_baseline then
            (divQC estimated_amplitude initial_baseline).map (· * 100)
           else some 0) with
    | none => none
    | some estimated_vo =>
      let exercise_start := 5
      let exercise_end := min 100 (samples.length - 10)
      if exercise_end ≤ exercise_start then some none
      else if estimated_vo < 3 then
        match argmaxQC ((samples.drop exercise_start).take (exercise_end - exercise_start)) with
        | none => none
        | some a => some (some (min (exercise_start + a) (samples.length - 1)))
      else
        let so := if window < samples.length then (movingAvg samples window, (window - 1) / 2)
                  else (samples, 0)
        let smoothed := so.1
        let offset := so.2
        let search_start := max 10 (smoothed.length / 10)
        let search_end := 9 * smoothed.length / 10
        if search_end ≤ search_start then some none
        else
          match argmaxQC ((smoothed.drop search_start).take (search_end - search_start)) with
          | none => none
          | some a => some (some (min (a + search_start + offset) (samples.length - 1)))

/-- Checked loop of _find_crossing (src/analysis.py lines 358-384): the two
sample reads and the interpolation division are checked. -/
def findCrossingAuxC (samples : List ℚ) (level : ℚ) (down : Bool) :
    Nat → Nat → Option (Option ℚ)
  | 0, _ => some none
  | fuel + 1, i =>
    if i + 1 < samples.length then
      match samples.get? i, samples.get? (i + 1) with
      | some si, some si1 =>
        if down then
          if si ≥ level ∧ si1 < level then
            (divQC (si - level) (si - si1)).map (fun frac => some ((i : ℚ) + frac))
          else findCrossingAuxC samples level down fuel (i + 1)
        else
          if si ≤ level ∧ si1 > level then
            (divQC (level - si) (si1 - si)).map (fun frac => some ((i : ℚ) + frac))
          else findCrossingAuxC samples level down fuel (i + 1)
      | _, _ => none
    else some none

/-- Checked _find_crossing (src/analysis.py lines 358-384). -/
def findCrossingC (samples : List ℚ) (level : ℚ) (down : Bool) : Option (Option ℚ) :=
  findCrossingAuxC samples level down samples.length 0

/-- Checked _calculate_ti (src/analysis.py lines 236-303): the two sample
reads and the two divisions are checked. -/
def calculateTiC (samples : List ℚ) (peak_idx : Nat) (peak_value baseline sr : ℚ) :
    Option (Option ℚ) :=
  let amplitude := peak_value - baseline
  if amplitude ≤ 0 then some none
  else
    let offset_3sec := peak_idx + (⌊3 * sr⌋).toNat
    if offset_3sec ≥ samples.length then some none
    else
      match samples.get? offset_3sec with
      | none => none
      | some s3 =>
        let delta_3sec := peak_value - s3
        let window_periods : ℚ := if delta_3sec ≥ 10 then 3 else 6
        let target0 := peak_idx + (⌊window_periods * sr⌋).toNat
        let target_idx := if target0 ≥ samples.length then samples.length - 1 else target0
        match (if target0 ≥ samples.length then
                divQC ((target_idx : ℚ) - (peak_idx : ℚ)) sr
               else some window_periods), samples.get? target_idx with
        | some wp, some tv =>
          let denominator := peak_value - tv
          if denominator ≤ 0 then some (some 120)
          else
            (divQC (wp * amplitude) denominator).map (fun Ti0 =>
              some (if 120 < Ti0 then 120 else Ti0))
        | _, _ => none

/-- Checked _calculate_fo (src/analysis.py lines 306-355): the endpoint read
and the normalising division are checked. -/
def calculateFoC (samples : List ℚ) (peak_idx end_idx : Nat) (baseline sr : ℚ) : Option ℚ :=
  if end_idx ≤ peak_idx ∨ baseline ≤ 0 then some 0
  else
    let end2 := min end_idx (samples.length - 1)
    let segment := (samples.drop peak_idx).take (end2 - peak_idx)
    let area := (segment.map (fun x => x - baseline)).sum
    match samples.get? end2 with
    | none => none
    | some se =>
      let last_excess := se - baseline
      let n_samples := end2 - peak_idx
      let correction := last_excess * (n_samples : ℚ) / 2
      let adjusted := area - correction
      (divQC (adjusted * 100) (baseline * sr)).map (fun f => max f 0)

/-- Checked _extrapolate_crossing (src/analysis.py lines 387-431): the three
sample reads, the slope division and the remaining/|slope| division are
checked. -/
def extrapolateCrossingC (samples : List ℚ) (level : ℚ) : Option (Option ℚ) :=
  if samples.length < 10 then some none
  else
    let n_fit := nFit samples.length
    let last_samples := samples.drop (samples.length - n_fit)
    match last_samples.get? (n_fit - 1), last_samples.get? 0,
          samples.get? (samples.length - 1) with
    | some lastv, some firstv, some last_value =>
      match divQC (lastv - firstv) ((n_fit : ℚ) - 1) with
      | none => none
      | some slope =>
        if slope ≥ 0 then some (some 480)
        else
          let remaining := last_value - level
          if remaining ≤ 0 then some (some ((samples.length : ℚ) - 1))
          else
            (divQC remaining |slope|).map (fun add =>
              let crossing_idx := ((samples.length : ℚ) - 1) + add
              some (if 480 < crossing_idx then 480 else crossing_idx))
    | _, _, _ => none

/-- Checked guards of _calculate_tau (src/analysis.py lines 434-486); the
divisions are by the constant sampling rate 4 and by 3.0, and the scipy fit
is wrapped in try/except in the source, so no checked operation remains. -/
def calculateTauC (samples : List ℚ) (peak_idx end_idx : Nat) (baseline peak_value : ℚ) :
    Option (Option ℚ) :=
  if end_idx ≤ peak_idx then some none
  else
    let segment := (samples.drop peak_idx).take (end_idx + 1 - peak_idx)
    if segment.length < 10 then some none
    else
      let A0 := peak_value - baseline
      if A0 ≤ 0 then some none
      else some none

/-- Checked exercise-start loop (src/analysis.py lines 210-214): the sample
read is checked; the loop bound keeps i below peak_idx. -/
def exerciseStartAuxC (samples : List ℚ) (threshold : ℚ) (peak_idx : Nat) :
    Nat → Nat → Option Nat
  | 0, _ => some 0
  | fuel + 1, i =>
    if i < peak_idx then
      match samples.get? i with
      | none => none
      | some si =>
        if si ≥ threshold then some i
        else exerciseStartAuxC samples threshold peak_idx fuel (i + 1)
    else some 0

/-- Checked initial_baseline (src/analysis.py lines 61-64). -/
def cpInitialBaselineC (block : PPGBlock) : Option ℚ :=
  if hasHw block then some ((block.hw_baseline.getD 0 : Nat) : ℚ)
  else medianQC ((cpSamples block).take 10)

/-- Checked stable_baseline (src/analysis.py line 66). -/
def cpStableBaselineC (block : PPGBlock) : Option ℚ :=
  medianQC ((cpSamples block).drop ((cpSamples block).length - 20))

/-- Checked peak selection (src/analysis.py lines 61-108): the baseline is
computed first, as in the source. -/
def cpPeakOptC (block : PPGBlock) : Option (Option Nat) :=
  match cpInitialBaselineC block with
  | none => none
  | some ib =>
    if hasHw block ∧ block.hw_peak_index.getD 0 < (cpSamples block).length then
      some (some (block.hw_peak_index.getD 0))
    else softwarePeakC (cpSamples block) ib

/-- Checked amplitude_vo (src/analysis.py lines 113-116): the peak_value read
samples[peak_idx] is checked. -/
def cpAmplitudeVoC (block : PPGBlock) (peak_idx : Nat) : Option ℚ :=
  if hasHw block ∧ 0 < block.hw_amplitude.getD 0 then
    some ((block.hw_amplitude.getD 0 : Nat) : ℚ)
  else
    match (cpSamples block).get? peak_idx, cpInitialBaselineC block with
    | some pv, some ib => some (pv - ib)
    | _, _ => none

/-- Checked Vo (src/analysis.py line 121): the division by initial_baseline
is checked. -/
def cpVoC (block : PPGBlock) (peak_idx : Nat) : Option ℚ :=
  match cpAmplitudeVoC block peak_idx, cpInitialBaselineC block with
  | some a, some ib => (divQC a ib).map (· * 100)
  | _, _ => none

/-- Checked Th (src/analysis.py lines 140-147). -/
def cpThC (block : PPGBlock) (peak_idx : Nat) : Option ℚ :=
  if hasHw block ∧ block.hw_Th_samples.isSome = true ∧ 0 < block.hw_Th_samples.getD 0 then
    some (((block.hw_Th_samples.getD 0 : Nat) : ℚ) * (1/4))
  else
    match cpInitialBaselineC block, cpAmplitudeVoC block peak_idx with
    | some ib, some amp =>
      match findCrossingC (cpRecovery block peak_idx) (ib + amp * (1/2)) true with
      | none => none
      | some r =>
        some ((match r with
               | some v => v
               | none => ((cpRecovery block peak_idx).length : ℚ) - 1) * (1/4))
    | _, _ => none

/-- Checked Ti (src/analysis.py lines 152-155). -/
def cpTiOptC (block : PPGBlock) (peak_idx : Nat) : Option (Option ℚ) :=
  if hwTiUsed block then some (some ((block.hw_Ti.getD 0 : Nat) : ℚ))
  else
    match (cpSamples block).get? peak_idx, cpInitialBaselineC block with
    | some pv, some ib => calculateTiC (cpSamples block) peak_idx pv ib 4
    | _, _ => none

/-- Checked To threshold level (src/analysis.py lines 165-172). -/
def cpLevelToC (block : PPGBlock) (peak_idx : Nat) : Option ℚ :=
  match cpStableBaselineC block, cpInitialBaselineC block, (cpSamples block).get? peak_idx,
        cpAmplitudeVoC block peak_idx with
  | some sb, some ib, some pv, some amp =>
    let reference_baseline := max sb ib
    let amplitude_ref := pv - reference_baseline
    let rb := if amplitude_ref ≤ 0 then ib else reference_baseline
    let ar := if amplitude_ref ≤ 0 then amp else amplitude_ref
    some (rb + ar * (3/100))
  | _, _, _, _ => none

/-- Checked To_samples_val (src/analysis.py lines 161-175). -/
def cpToSamplesOptC (block : PPGBlock) (peak_idx : Nat) : Option (Option ℚ) :=
  if hwToUsed block then some (some ((block.hw_To_samples.getD 0 : Nat) : ℚ))
  else
    match cpLevelToC block peak_idx with
    | none => none
    | some level =>
      match findCrossingC (cpRecovery block peak_idx) level true with
      | none => none
      | some r =>
        match r with
        | some v => some (some v)
        | none => extrapolateCrossingC (cpRecovery block peak_idx) level

/-- Checked To in seconds (src/analysis.py lines 163 and 176). -/
def cpToOptC (block : PPGBlock) (peak_idx : Nat) : Option (Option ℚ) :=
  if hwToUsed block then (cpToSamplesOptC block peak_idx).map (fun o => o.map (· * (1/4)))
  else
    match cpToSamplesOptC block peak_idx with
    | none => none
    | some r =>
      some (match r with
            | some v => if v = 0 then none else some (v * (1/4))
            | none => none)

/-- Checked Fo end index (src/analysis.py lines 190-196). -/
def cpFoEndIdxC (block : PPGBlock) (peak_idx : Nat) : Option Nat :=
  if hasHw block ∧ block.hw_To_samples.isSome = true then
    some (peak_idx + block.hw_To_samples.getD 0)
  else
    match cpToSamplesOptC block peak_idx with
    | none => none
    | some r =>
      some (match r with
            | some v => peak_idx + (⌊v⌋).toNat
            | none => (cpSamples block).length - 1)

/-- Checked Fo (src/analysis.py lines 187-197). -/
def cpFoC (block : PPGBlock) (peak_idx : Nat) : Option ℚ :=
  if hasHw block ∧ block.hw_Fo_x100.isSome = true ∧ 0 < block.hw_Fo_x100.getD 0 then
    some (((block.hw_Fo_x100.getD 0 : Nat) : ℚ) / 100)
  else
    match cpFoEndIdxC block peak_idx, cpInitialBaselineC block with
    | some fe, some ib =>
      calculateFoC (cpSamples block) peak_idx (min fe ((cpSamples block).length - 1)) ib 4
    | _, _ => none

/-- Checked To_end_index (src/analysis.py lines 202-207). -/
def cpToEndIndexC (block : PPGBlock) (peak_idx : Nat) : Option Nat :=
  if hasHw block ∧ block.hw_end_index.isSome = true then
    some (min (block.hw_end_index.getD 0) ((cpSamples block).length - 1))
  else
    match cpToSamplesOptC block peak_idx with
    | none => none
    | some r =>
      some (match r with
            | some v => min (peak_idx + (⌊v⌋).toNat) ((cpSamples block).length - 1)
            | none => (cpSamples block).length - 1)

/-- Checked exercise_start_index (src/analysis.py lines 209-214). -/
def cpExerciseStartC (block : PPGBlock) (peak_idx : Nat) : Option Nat :=
  match cpInitialBaselineC block, cpAmplitudeVoC block peak_idx with
  | some ib, some amp =>
    exerciseStartAuxC (cpSamples block) (ib + amp * (1/10)) peak_idx peak_idx 0
  | _, _ => none

/-- Checked tau (src/analysis.py line 219). -/
def cpTauC (block : PPGBlock) (peak_idx : Nat) : Option (Option ℚ) :=
  match cpToEndIndexC block peak_idx, cpInitialBaselineC block,
        (cpSamples block).get? peak_idx with
  | some te, some ib, some pv => calculateTauC (cpSamples block) peak_idx te ib pv
  | _, _, _ => none

/-- Checked calculate_parameters (src/analysis.py lines 33-233): `some none`
are the source's return None paths, `some (some p)` the success path, and
an outer `none` would mark an unguarded partial operation. -/
def calculate_parametersC (block : PPGBlock) : Option (Option PPGParameters) :=
  if (cpSamples block).length < 40 then some none
  else
    match cpPeakOptC block with
    | none => none
    | some none => some none
    | some (some peak_idx) =>
      match cpAmplitudeVoC block peak_idx, cpInitialBaselineC block with
      | some amp, some ib =>
        if amp ≤ 0 ∨ ib ≤ 0 then some none
        else
          match cpVoC block peak_idx with
          | none => none
          | some vo =>
            if vo < 1/2 then some none
            else if (cpRecovery block peak_idx).length < 10 then some none
            else
              match cpThC block peak_idx, cpToOptC block peak_idx, cpTiOptC block peak_idx with
              | some th, some oTo, some oTi =>
                match oTo, oTi with
                | some To, some Ti =>
                  if To ≤ 0 ∨ th ≤ 0 ∨ Ti ≤ 0 then some none
                  else
                    match cpFoC block peak_idx, cpToEndIndexC block peak_idx,
                          cpExerciseStartC block peak_idx, cpTauC block peak_idx,
                          (cpSamples block).get? peak_idx with
                    | some fo, some tei, some esi, some tau, some pv =>
                      some (some { To := roundTo1 To
                                   Th := roundTo1 th
                                   Ti := roundTo0 Ti
                                   Vo := roundTo1 vo
                                   Fo := roundTo0 fo
                                   tau := tau
                                   peak_index := peak_idx
                                   To_end_index := tei
                                   exercise_start_index := esi
                                   baseline_value := ib
                                   peak_value := pv })
                    | _, _, _, _, _ => none
                | _, _ => some none
              | _, _, _ => none
      | _, _ => none

/-! # Theorems -/

/-! ## Rounding lemmas -/

theorem pyRound_ge_floor (q : ℚ) : ⌊q⌋ ≤ pyRound q := by
  unfold pyRound
  repeat' split
  all_goals omega

theorem pyRound_ge_of_le {n : ℤ} {q : ℚ} (h : (n : ℚ) ≤ q) : n ≤ pyRound q := by
  have hf : n ≤ ⌊q⌋ := by
    have h2 := Int.floor_mono h
    simpa using h2
  exact le_trans hf (pyRound_ge_floor q)

theorem pyRound_le_of_le {q : ℚ} {n : ℤ} (h : q ≤ (n : ℚ)) : pyRound q ≤ n := by
  have hf : ⌊q⌋ ≤ n := by
    have h2 := Int.floor_mono h
    simpa using h2
  by_cases hlt : q - ⌊q⌋ < 1/2
  · unfold pyRound
    rw [if_pos hlt]
    exact hf
  · have hhalf : (1 : ℚ)/2 ≤ q - ⌊q⌋ := le_of_not_lt hlt
    have hflq : (⌊q⌋ : ℚ) < q := by linarith
    have hne : ⌊q⌋ < n := by
      by_contra hc
      have hc2 : (n : ℚ) ≤ (⌊q⌋ : ℚ) := by exact_mod_cast le_of_not_lt (fun hx => hc (by omega))
      linarith
    unfold pyRound
    rw [if_neg hlt]
    split
    · omega
    · split <;> omega

theorem roundTo1_nonneg {q : ℚ} (h : 0 ≤ q) : 0 ≤ roundTo1 q := by
  unfold roundTo1
  have h0 : (0 : ℤ) ≤ pyRound (10 * q) := pyRound_ge_of_le (by push_cast; linarith)
  have h1 : (0 : ℚ) ≤ (pyRound (10 * q) : ℚ) := by exact_mod_cast h0
  positivity

theorem roundTo1_ge_half {q : ℚ} (h : 1/2 ≤ q) : 1/2 ≤ roundTo1 q := by
  unfold roundTo1
  have h0 : (5 : ℤ) ≤ pyRound (10 * q) := pyRound_ge_of_le (by push_cast; linarith)
  have h1 : (5 : ℚ) ≤ (pyRound (10 * q) : ℚ) := by exact_mod_cast h0
  linarith

theorem roundTo0_nonneg {q : ℚ} (h : 0 ≤ q) : 0 ≤ roundTo0 q := by
  unfold roundTo0
  have h0 : (0 : ℤ) ≤ pyRound q := pyRound_ge_of_le (by push_cast; linarith)
  exact_mod_cast h0

theorem roundTo0_le_120 {q : ℚ} (h : q ≤ 120) : roundTo0 q ≤ 120 := by
  unfold roundTo0
  have h0 : pyRound q ≤ (120 : ℤ) := pyRound_le_of_le (by push_cast; linarith)
  exact_mod_cast h0

/-! ## Claims C8 and C9: the artifact trimmer -/

/-- C8 counterexample: on c8List the quartiles are q1 = 100, q3 = 104, so
the raw IQR is 4 — strictly between 0 and 50 — and the source uses it
as is: the trailing 120 is trimmed.  With the effective IQR max(q3-q1, 50)
claimed by the spec, nothing would be trimmed.  Hence the trimming decision
is not made with an effective IQR of max(q3 - q1, 50). -/
theorem claim_C8_counterexample :
    (trimStats c8List).2.2 - (trimStats c8List).2.1 = 4 ∧
    trimTrailingArtifacts c8List = c8List.take 14 ∧
    trimAfterStats c8List (trimStats c8List).1
      (max ((trimStats c8List).2.2 - (trimStats c8List).2.1) 50) = c8List ∧
    trimTrailingArtifacts c8List ≠
      trimAfterStats c8List (trimStats c8List).1
        (max ((trimStats c8List).2.2 - (trimStats c8List).2.1) 50) := by
  refine ⟨by decide, by decide, by decide, by decide⟩

/-- C8 amended: for every sample list of at least 15 elements the trimming
decision is made with the effective IQR q3 - q1 when q3 > q1 and 50
otherwise — i.e. the floor of 50 applies only to a zero IQR, not to every
IQR below 50. -/
theorem claim_C8 (l : List Nat) (h : 15 ≤ l.length) :
    trimTrailingArtifacts l =
      trimAfterStats l (trimStats l).1
        (if (trimStats l).2.1 < (trimStats l).2.2
         then (trimStats l).2.2 - (trimStats l).2.1 else 50) := by
  unfold trimTrailingArtifacts trimAfterStats trimStats
  rw [if_neg (by omega)]
  rw [if_neg (by simp [List.length_take]; omega)]

/-- C8 witness: the amended statement evaluated on c8List. -/
theorem claim_C8_witness :
    15 ≤ c8List.length ∧
    trimTrailingArtifacts c8List =
      trimAfterStats c8List (trimStats c8List).1
        (if (trimStats c8List).2.1 < (trimStats c8List).2.2
         then (trimStats c8List).2.2 - (trimStats c8List).2.1 else 50) :=
  ⟨by decide, claim_C8 c8List (by decide)⟩

/-- C9 counterexample: trimming c9List removes the trailing 500; trimming
the result again removes the 300 that has entered the last-5 window, so
trim(trim(samples)) differs from trim(samples). -/
theorem claim_C9_counterexample :
    trimTrailingArtifacts c9List = c9List.take 15 ∧
    trimTrailingArtifacts (trimTrailingArtifacts c9List) = c9List.take 10 ∧
    trimTrailingArtifacts (trimTrailingArtifacts c9List) ≠ trimTrailingArtifacts c9List := by
  refine ⟨by decide, by decide, by decide⟩

/-- C9 amended: the trimmer always returns a prefix of its input (so
repeated application only removes further trailing samples), and it is
idempotent on every list it leaves unchanged; full idempotence fails
(see the counterexample). -/
theorem claim_C9 (l : List Nat) :
    (∃ k, trimTrailingArtifacts l = l.take k) ∧
    (trimTrailingArtifacts l = l →
      trimTrailingArtifacts (trimTrailingArtifacts l) = trimTrailingArtifacts l) := by
  constructor
  · unfold trimTrailingArtifacts
    dsimp only
    repeat' split
    all_goals first
      | exact ⟨l.length, Eq.symm (List.take_length l)⟩
      | exact ⟨_, rfl⟩
  · intro h
    rw [h]
    exact h

/-- C9 witness: a flat list is a fixed point of the trimmer, and the
amended statement applies to it. -/
theorem claim_C9_witness :
    trimTrailingArtifacts (trimTrailingArtifacts (List.replicate 15 100)) =
      trimTrailingArtifacts (List.replicate 15 100) :=
  (claim_C9 (List.replicate 15 100)).2 (by decide)

/-! ## Parser basics, claims C3 and C4 -/

theorem firstEsc_eq_none_of {b : List Nat} (h : ∀ x ∈ b, x ≠ ESC) : firstEsc b = none := by
  induction b with
  | nil => rfl
  | cons x xs ih =>
    have hx : x ≠ ESC := h x (by simp)
    simp only [firstEsc, if_neg hx]
    rw [ih (fun y hy => h y (by simp [hy]))]
    rfl

theorem tryParseBlock_nil : tryParseBlock [] = ⟨none, 0, false⟩ := rfl

theorem parseLoop_nil (f : Nat) : parseLoop f [] = ([], []) := by
  cases f with
  | zero => rfl
  | succ k => rfl

/-- C3 counterexample: on the ESC-free buffer [0], parse_buffer consumes
the whole buffer — it returns an empty remainder, not the buffer
unchanged. -/
theorem claim_C3_counterexample :
    parse_buffer [0] = ([], []) ∧ parse_buffer [0] ≠ ([], [0]) := by
  refine ⟨by decide, by decide⟩

/-- C3 amended: for every buffer that contains no ESC byte, parse_buffer
returns no blocks and consumes the entire buffer, returning an empty
remainder (the source counts the whole ESC-free buffer as consumed). -/
theorem claim_C3 (b : List Nat) (h : ∀ x ∈ b, x ≠ ESC) : parse_buffer b = ([], []) := by
  have he : firstEsc b = none := firstEsc_eq_none_of h
  have ht : tryParseBlock b = ⟨none, b.length, false⟩ := by
    unfold tryParseBlock
    rw [he]
  unfold parse_buffer
  simp only [parseLoop, ht, optBlockList, List.drop_length]
  by_cases hb : b.length = 0
  · simp [hb]
  · simp [hb, parseLoop_nil]

/-- C3 witness: the amended statement evaluated on a concrete ESC-free
buffer. -/
theorem claim_C3_witness :
    (∀ x ∈ [5, 3, 200], x ≠ ESC) ∧ parse_buffer [5, 3, 200] = ([], []) :=
  ⟨by decide, claim_C3 [5, 3, 200] (by decide)⟩

/-- C4: fuel irrelevance of the parse loop — any fuel above the buffer
length yields the same result, so the loop of parse_buffer reaches its
break conditions within length + 1 iterations. -/
theorem parseLoop_fuel_irrelevant : ∀ f1 f2 (b : List Nat), b.length < f1 → b.length < f2 →
    parseLoop f1 b = parseLoop f2 b := by
  intro f1
  induction f1 with
  | zero => intro f2 b h1 h2; omega
  | succ k ih =>
    intro f2 b h1 h2
    cases f2 with
    | zero => omega
    | succ m =>
      simp only [parseLoop]
      by_cases hm : (tryParseBlock b).needs_more_data = true
      · simp [hm]
      · by_cases hz : (tryParseBlock b).bytes_consumed = 0
        · simp [hm, hz]
        · have hbne : b ≠ [] := by
            intro hbeq
            rw [hbeq, tryParseBlock_nil] at hz
            exact hz rfl
          have hlen : 0 < b.length := List.length_pos.mpr hbne
          have hdrop : (b.drop (tryParseBlock b).bytes_consumed).length < b.length := by
            rw [List.length_drop]
            omega
          simp only [hm, hz, if_false, if_neg]
          rw [ih m (b.drop (tryParseBlock b).bytes_consumed) (by omega) (by omega)]

/-- Claim C4: parse_buffer terminates on every input buffer — the
scan/skip/consume loop stabilises within length + 1 iterations, because
every iteration either breaks (needs-more-data or zero bytes consumed) or
strictly shrinks the remaining buffer; running the loop with any larger
fuel gives the identical result. -/
theorem claim_C4 (b : List Nat) (fuel : Nat) (h : b.length < fuel) :
    parseLoop fuel b = parse_buffer b :=
  parseLoop_fuel_irrelevant fuel (b.length + 1) b h (by omega)

/-- C4 witness: the loop on a concrete 5-byte buffer with a large fuel. -/
theorem claim_C4_witness :
    parseLoop 100 [1, 27, 76, 2, 3] = parse_buffer [1, 27, 76, 2, 3] :=
  claim_C4 [1, 27, 76, 2, 3] 100 (by decide)

/-! ## Claim C1: index bookkeeping lemmas -/

theorem getD_append_shift (g v : List Nat) (i d : Nat) :
    (g ++ v).getD (g.length + i) d = v.getD i d := by
  rw [List.getD_append_right g v d (g.length + i) (by omega)]
  congr 1
  omega

theorem getD_append_pre (g v : List Nat) (i d : Nat) (h : i < g.length) :
    (g ++ v).getD i d = g.getD i d :=
  List.getD_append g v d i h

theorem firstEsc_some_lt : ∀ {b : List Nat} {e : Nat}, firstEsc b = some e → e < b.length := by
  intro b
  induction b with
  | nil => intro e h; simp [firstEsc] at h
  | cons x xs ih =>
    intro e h
    simp only [firstEsc] at h
    by_cases hx : x = ESC
    · rw [if_pos hx] at h
      injection h with h
      simp only [List.length_cons]
      omega
    · rw [if_neg hx] at h
      cases he : firstEsc xs with
      | none => rw [he] at h; simp at h
      | some e0 =>
        rw [he] at h
        have h4 : e0 + 1 = e := by simpa using h
        have h2 := ih he
        simp only [List.length_cons]
        omega

theorem firstEsc_append_pre : ∀ {xs : List Nat} {e : Nat} (ys : List Nat),
    firstEsc xs = some e → firstEsc (xs ++ ys) = some e := by
  intro xs
  induction xs with
  | nil => intro e ys h; simp [firstEsc] at h
  | cons x t ih =>
    intro e ys h
    simp only [firstEsc] at h
    simp only [List.cons_append, firstEsc, List.append_eq]
    by_cases hx : x = ESC
    · rw [if_pos hx] at h ⊢
      exact h
    · rw [if_neg hx] at h ⊢
      cases he : firstEsc t with
      | none => rw [he] at h; simp at h
      | some e0 =>
        rw [he] at h
        rw [ih ys he]
        exact h

theorem firstEsc_cons_tail {x : Nat} {t : List Nat} (hx : x ≠ ESC)
    (h : firstEsc (x :: t) = none) : firstEsc t = none := by
  simp only [firstEsc, if_neg hx] at h
  cases he : firstEsc t with
  | none => rfl
  | some e0 => rw [he] at h; simp at h

theorem firstEsc_none_head {x : Nat} {t : List Nat} (h : firstEsc (x :: t) = none) : x ≠ ESC := by
  intro hx
  simp [firstEsc, if_pos hx] at h

theorem firstEsc_append_none_some : ∀ {g : List Nat} (v : List Nat) {k : Nat},
    firstEsc g = none → firstEsc v = some k → firstEsc (g ++ v) = some (g.length + k) := by
  intro g
  induction g with
  | nil => intro v k hg hv; simpa using hv
  | cons x t ih =>
    intro v k hg hv
    have hx : x ≠ ESC := firstEsc_none_head hg
    have ht : firstEsc t = none := firstEsc_cons_tail hx hg
    simp only [List.cons_append, firstEsc, if_neg hx, List.append_eq]
    rw [ih v ht hv]
    have h4 : (x :: t).length + k = t.length + k + 1 := by
      simp only [List.length_cons]
      omega
    rw [h4]
    rfl

theorem firstEsc_append_none_none : ∀ {g : List Nat} (v : List Nat),
    firstEsc g = none → firstEsc v = none → firstEsc (g ++ v) = none := by
  intro g
  induction g with
  | nil => intro v hg hv; simpa using hv
  | cons x t ih =>
    intro v hg hv
    have hx : x ≠ ESC := firstEsc_none_head hg
    have ht : firstEsc t = none := firstEsc_cons_tail hx hg
    simp only [List.cons_append, firstEsc, if_neg hx, List.append_eq]
    rw [ih v ht hv]
    rfl

theorem skipToEsc_of_none : ∀ {b : List Nat}, firstEsc b = none → skipToEsc b = b.length := by
  intro b
  induction b with
  | nil => intro h; rfl
  | cons x t ih =>
    intro h
    have hx : x ≠ ESC := firstEsc_none_head h
    have ht : firstEsc t = none := firstEsc_cons_tail hx h
    simp only [skipToEsc, if_neg hx, List.length_cons, ih ht]

theorem skipToEsc_of_some : ∀ {b : List Nat} {e : Nat}, firstEsc b = some e → skipToEsc b = e := by
  intro b
  induction b with
  | nil => intro e h; simp [firstEsc] at h
  | cons x t ih =>
    intro e h
    simp only [firstEsc] at h
    by_cases hx : x = ESC
    · rw [if_pos hx] at h
      injection h with h
      simp [skipToEsc, if_pos hx, ← h]
    · rw [if_neg hx] at h
      cases he : firstEsc t with
      | none => rw [he] at h; simp at h
      | some e0 =>
        rw [he] at h
        have h4 : e0 + 1 = e := by simpa using h
        simp only [skipToEsc, if_neg hx, ih he, h4]

theorem skipToEsc_take_no_esc : ∀ (l : List Nat), ∀ x ∈ l.take (skipToEsc l), x ≠ ESC := by
  intro l
  induction l with
  | nil => intro x hx; simp at hx
  | cons y t ih =>
    intro x hx
    by_cases hy : y = ESC
    · simp [skipToEsc, if_pos hy] at hx
    · simp only [skipToEsc, if_neg hy, List.take_succ_cons, List.mem_cons] at hx
      rcases hx with hx | hx
      · rw [hx]; exact hy
      · exact ih x hx

theorem skipToEsc_append_none {g : List Nat} (v : List Nat) (hg : firstEsc g = none) :
    skipToEsc (g ++ v) = g.length + skipToEsc v := by
  induction g with
  | nil => simp
  | cons x t ih =>
    have hx : x ≠ ESC := firstEsc_none_head hg
    have ht : firstEsc t = none := firstEsc_cons_tail hx hg
    simp only [List.cons_append, skipToEsc, if_neg hx, List.append_eq, ih ht, List.length_cons]
    omega

theorem mem_take_append {x : Nat} : ∀ {a : List Nat} (b : List Nat) {n : Nat},
    x ∈ a.take n → x ∈ (a ++ b).take n := by
  intro a
  induction a with
  | nil => intro b n h; simp at h
  | cons y t ih =>
    intro b n h
    cases n with
    | zero => simp at h
    | succ m =>
      simp only [List.take_succ_cons, List.mem_cons] at h
      simp only [List.cons_append, List.take_succ_cons, List.mem_cons]
      rcases h with h | h
      · exact Or.inl h
      · exact Or.inr (ih b h)

theorem hasNextBlock_shift (g v : List Nat) (d : Nat) :
    hasNextBlock (g ++ v) (g.length + d) ↔ hasNextBlock v d := by
  unfold hasNextBlock
  rw [List.drop_append d]

theorem hasNextBlock_mono {xs : List Nat} (ys : List Nat) {d : Nat} (hd : d ≤ xs.length)
    (h : hasNextBlock xs d) : hasNextBlock (xs ++ ys) d := by
  unfold hasNextBlock at h ⊢
  rw [List.drop_append_of_le_length hd]
  exact mem_take_append ys h

theorem isValidHeader_shift (g v : List Nat) (e : Nat) :
    isValidHeader (g ++ v) (g.length + e) ↔ isValidHeader v e := by
  unfold isValidHeader
  simp only [Nat.add_assoc, getD_append_shift]

theorem isValidHeader_pre (xs ys : List Nat) (e : Nat) (h : e + 10 ≤ xs.length) :
    isValidHeader (xs ++ ys) e ↔ isValidHeader xs e := by
  unfold isValidHeader
  rw [getD_append_pre xs ys (e + 1) 0 (by omega), getD_append_pre xs ys (e + 3) 0 (by omega),
    getD_append_pre xs ys (e + 4) 0 (by omega), getD_append_pre xs ys (e + 5) 0 (by omega)]

theorem numSamplesAt_shift (g v : List Nat) (e : Nat) :
    numSamplesAt (g ++ v) (g.length + e) = numSamplesAt v e := by
  unfold numSamplesAt
  simp only [Nat.add_assoc, getD_append_shift]

theorem numSamplesAt_pre (xs ys : List Nat) (e : Nat) (h : e + 10 ≤ xs.length) :
    numSamplesAt (xs ++ ys) e = numSamplesAt xs e := by
  unfold numSamplesAt
  rw [getD_append_pre xs ys (e + 7) 0 (by omega), getD_append_pre xs ys (e + 8) 0 (by omega)]

theorem dataEndAt_shift (g v : List Nat) (e : Nat) :
    dataEndAt (g ++ v) (g.length + e) = g.length + dataEndAt v e := by
  unfold dataEndAt
  rw [numSamplesAt_shift g v e]
  omega

theorem dataEndAt_pre (xs ys : List Nat) (e : Nat) (h : e + 10 ≤ xs.length) :
    dataEndAt (xs ++ ys) e = dataEndAt xs e := by
  unfold dataEndAt
  rw [numSamplesAt_pre xs ys e h]

theorem extractSamplesAux_shift (g v : List Nat) (endp : Nat) :
    ∀ fuel i, extractSamplesAux (g ++ v) (g.length + endp) fuel (g.length + i) =
      extractSamplesAux v endp fuel i := by
  intro fuel
  induction fuel with
  | zero => intro i; rfl
  | succ f ih =>
    intro i
    simp only [extractSamplesAux, List.length_append]
    by_cases hi : i < endp
    · rw [if_pos (by omega), if_pos hi]
      by_cases hb : i + 1 < v.length
      · rw [if_pos (by omega), if_pos hb]
        simp only [Nat.add_assoc, getD_append_shift]
        rw [ih (i + 2)]
      · rw [if_neg (by omega), if_neg hb]
        simp only [Nat.add_assoc]
        rw [ih (i + 2)]
    · rw [if_neg (by omega), if_neg hi]

theorem extractSamples_shift (g v : List Nat) (s e : Nat) :
    extractSamples (g ++ v) (g.length + s) (g.length + e) = extractSamples v s e := by
  unfold extractSamples
  rw [show g.length + e - (g.length + s) = e - s by omega]
  exact extractSamplesAux_shift g v e (e - s + 1) s

theorem extractSamplesAux_pre (xs ys : List Nat) (endp : Nat) (hend : endp ≤ xs.length) :
    ∀ fuel i m, endp = i + 2 * m →
      extractSamplesAux (xs ++ ys) endp fuel i = extractSamplesAux xs endp fuel i := by
  intro fuel
  induction fuel with
  | zero => intro i m hm; rfl
  | succ f ih =>
    intro i m hm
    simp only [extractSamplesAux, List.length_append]
    by_cases hi : i < endp
    · rw [if_pos hi, if_pos hi]
      have hm1 : 1 ≤ m := by omega
      have hxlen : i + 1 < xs.length := by omega
      rw [if_pos (by omega), if_pos hxlen]
      rw [getD_append_pre xs ys i 0 (by omega), getD_append_pre xs ys (i + 1) 0 (by omega)]
      rw [ih (i + 2) (m - 1) (by omega)]
    · rw [if_neg hi, if_neg hi]

theorem extractSamples_pre (xs ys : List Nat) (s n : Nat) (h : s + n * 2 ≤ xs.length) :
    extractSamples (xs ++ ys) s (s + n * 2) = extractSamples xs s (s + n * 2) := by
  unfold extractSamples
  exact extractSamplesAux_pre xs ys (s + n * 2) h (s + n * 2 - s + 1) s n (by omega)

theorem findNextBlockStart_shift (g v : List Nat) (d : Nat) :
    findNextBlockStart (g ++ v) (g.length + d) = g.length + findNextBlockStart v d := by
  unfold findNextBlockStart
  rw [List.drop_append d]
  omega

/-! ## Claim C1: one-step lemmas for the block parser -/

theorem buildBlock_shift (g v : List Nat) (e : Nat) :
    buildBlock (g ++ v) (g.length + e) = buildBlock v e := by
  unfold buildBlock
  dsimp only
  rw [dataEndAt_shift g v e]
  rw [show g.length + e + 2 = g.length + (e + 2) by omega]
  rw [getD_append_shift g v (e + 2) 0]
  rw [show g.length + e + 9 = g.length + (e + 9) by omega]
  rw [extractSamples_shift g v (e + 9) (dataEndAt v e)]
  rw [List.drop_append (dataEndAt v e)]

theorem obsB_buildBlock (b : List Nat) (e : Nat) :
    obsB (buildBlock b e) =
      (b.getD (e + 2) 0, extractSamples b (e + 9) (dataEndAt b e),
        trimTrailingArtifacts (extractSamples b (e + 9) (dataEndAt b e))) := by
  unfold buildBlock
  dsimp only
  repeat' split
  all_goals rfl

theorem obsB_buildBlock_pre (xs ys : List Nat) (e : Nat) (h10 : e + 10 ≤ xs.length)
    (hde : dataEndAt xs e ≤ xs.length) :
    obsB (buildBlock (xs ++ ys) e) = obsB (buildBlock xs e) := by
  rw [obsB_buildBlock, obsB_buildBlock]
  rw [dataEndAt_pre xs ys e h10]
  rw [getD_append_pre xs ys (e + 2) 0 (by omega)]
  have hrepr : dataEndAt xs e = (e + 9) + numSamplesAt xs e * 2 := by
    unfold dataEndAt
    omega
  have hsamp : extractSamples (xs ++ ys) (e + 9) (dataEndAt xs e) =
      extractSamples xs (e + 9) (dataEndAt xs e) := by
    rw [hrepr]
    exact extractSamples_pre xs ys (e + 9) (numSamplesAt xs e) (by rw [← hrepr]; exact hde)
  rw [hsamp]

theorem tpb_noEsc {b : List Nat} (h : firstEsc b = none) :
    tryParseBlock b = ⟨none, b.length, false⟩ := by
  unfold tryParseBlock
  rw [h]

theorem tpb_short {b : List Nat} {e : Nat} (h : firstEsc b = some e) (h2 : b.length < e + 10) :
    tryParseBlock b = ⟨none, 0, true⟩ := by
  unfold tryParseBlock
  rw [h]
  dsimp only
  rw [if_pos (by omega)]

theorem tpb_invalid {b : List Nat} {e : Nat} (h : firstEsc b = some e) (h2 : e + 10 ≤ b.length)
    (h3 : ¬ isValidHeader b e) : tryParseBlock b = ⟨none, e + 1, false⟩ := by
  unfold tryParseBlock
  rw [h]
  dsimp only
  rw [if_neg (by omega), if_pos h3]

theorem tpb_payload_short {b : List Nat} {e : Nat} (h : firstEsc b = some e)
    (h2 : e + 10 ≤ b.length) (h3 : isValidHeader b e) (h4 : b.length < dataEndAt b e) :
    tryParseBlock b = ⟨none, 0, true⟩ := by
  unfold tryParseBlock
  rw [h]
  dsimp only
  rw [if_neg (by omega), if_neg (by simp [h3]), if_pos (by omega)]

theorem tpb_meta_short {b : List Nat} {e : Nat} (h : firstEsc b = some e)
    (h2 : e + 10 ≤ b.length) (h3 : isValidHeader b e) (h4 : dataEndAt b e ≤ b.length)
    (h5 : ¬ hasNextBlock b (dataEndAt b e)) (h6 : b.length < dataEndAt b e + 10) :
    tryParseBlock b = ⟨none, 0, true⟩ := by
  unfold tryParseBlock
  rw [h]
  dsimp only
  rw [if_neg (by omega), if_neg (by simp [h3]), if_neg (by omega), if_pos ⟨h5, by omega⟩]

theorem tpb_emit {b : List Nat} {e : Nat} (h : firstEsc b = some e)
    (h2 : e + 10 ≤ b.length) (h3 : isValidHeader b e) (h4 : dataEndAt b e ≤ b.length)
    (h5 : hasNextBlock b (dataEndAt b e) ∨ dataEndAt b e + 10 ≤ b.length) :
    tryParseBlock b =
      ⟨some (buildBlock b e), findNextBlockStart b (dataEndAt b e), false⟩ := by
  unfold tryParseBlock
  rw [h]
  dsimp only
  rw [if_neg (by omega), if_neg (by simp [h3]), if_neg (by omega), if_neg (by
    rintro ⟨hn, hlen⟩
    rcases h5 with h5 | h5
    · exact hn h5
    · omega)]

theorem dataEndAt_ge (b : List Nat) (e : Nat) : e + 9 ≤ dataEndAt b e := by
  unfold dataEndAt
  omega

theorem tpb_consumed_pos {b : List Nat} {e : Nat} (h : firstEsc b = some e)
    (hm : (tryParseBlock b).needs_more_data = false) :
    (tryParseBlock b).bytes_consumed ≠ 0 := by
  by_cases h2 : e + 10 ≤ b.length
  · by_cases h3 : isValidHeader b e
    · by_cases h4 : dataEndAt b e ≤ b.length
      · by_cases h5 : hasNextBlock b (dataEndAt b e) ∨ dataEndAt b e + 10 ≤ b.length
        · rw [tpb_emit h h2 h3 h4 h5]
          have h9 := dataEndAt_ge b e
          unfold findNextBlockStart
          dsimp only
          omega
        · push_neg at h5
          rw [tpb_meta_short h h2 h3 h4 h5.1 h5.2] at hm
          simp at hm
      · rw [tpb_payload_short h h2 h3 (by omega)] at hm
        simp at hm
    · rw [tpb_invalid h h2 h3]
      simp
  · rw [tpb_short h (by omega)] at hm
    simp at hm

theorem parse_buffer_nil : parse_buffer [] = ([], []) := rfl

theorem parse_buffer_stall {b : List Nat} (h : (tryParseBlock b).needs_more_data = true) :
    parse_buffer b = ([], b) := by
  unfold parse_buffer
  simp [parseLoop, h]

theorem parse_buffer_of_firstEsc_none {b : List Nat} (h : firstEsc b = none) :
    parse_buffer b = ([], []) := by
  have ht : tryParseBlock b = ⟨none, b.length, false⟩ := tpb_noEsc h
  unfold parse_buffer
  simp only [parseLoop, ht, optBlockList, List.drop_length]
  by_cases hb : b.length = 0
  · simp [hb]
  · simp [hb, parseLoop_nil]

theorem parse_buffer_step {b : List Nat} (hm : (tryParseBlock b).needs_more_data = false)
    (hz : (tryParseBlock b).bytes_consumed ≠ 0) :
    parse_buffer b =
      (optBlockList (tryParseBlock b).block ++
        (parse_buffer (b.drop (tryParseBlock b).bytes_consumed)).1,
       (parse_buffer (b.drop (tryParseBlock b).bytes_consumed)).2) := by
  have hbne : b ≠ [] := by
    intro hb
    rw [hb, tryParseBlock_nil] at hz
    exact hz rfl
  have hlen : 0 < b.length := List.length_pos.mpr hbne
  have hdl : (b.drop (tryParseBlock b).bytes_consumed).length < b.length := by
    rw [List.length_drop]
    omega
  rw [show parse_buffer b = parseLoop (b.length + 1) b from rfl]
  simp only [parseLoop]
  rw [if_neg (by simp [hm]), if_neg hz]
  rw [parseLoop_fuel_irrelevant b.length
    ((b.drop (tryParseBlock b).bytes_consumed).length + 1)
    (b.drop (tryParseBlock b).bytes_consumed) (by omega) (by omega)]
  rfl

/-! ## Claim C1: translation invariance past an ESC-free garbage prefix -/

theorem tpb_garbage_shift {g v : List Nat} {k : Nat} (hg : firstEsc g = none)
    (hv : firstEsc v = some k) :
    tryParseBlock (g ++ v) =
      ⟨(tryParseBlock v).block,
       if (tryParseBlock v).needs_more_data then 0
       else g.length + (tryParseBlock v).bytes_consumed,
       (tryParseBlock v).needs_more_data⟩ := by
  have hge := firstEsc_append_none_some v hg hv
  have hlenw : (g ++ v).length = g.length + v.length := List.length_append g v
  by_cases h2 : k + 10 ≤ v.length
  · by_cases h3 : isValidHeader v k
    · have h3w : isValidHeader (g ++ v) (g.length + k) := (isValidHeader_shift g v k).mpr h3
      have hdw : dataEndAt (g ++ v) (g.length + k) = g.length + dataEndAt v k :=
        dataEndAt_shift g v k
      by_cases h4 : dataEndAt v k ≤ v.length
      · by_cases h5 : hasNextBlock v (dataEndAt v k) ∨ dataEndAt v k + 10 ≤ v.length
        · rw [tpb_emit hv h2 h3 h4 h5]
          have h5w : hasNextBlock (g ++ v) (dataEndAt (g ++ v) (g.length + k)) ∨
              dataEndAt (g ++ v) (g.length + k) + 10 ≤ (g ++ v).length := by
            rw [hdw]
            rcases h5 with h5 | h5
            · exact Or.inl ((hasNextBlock_shift g v (dataEndAt v k)).mpr h5)
            · right
              omega
          rw [tpb_emit hge (by omega) h3w (by rw [hdw]; omega) h5w]
          rw [hdw, buildBlock_shift, findNextBlockStart_shift]
          simp
        · push_neg at h5
          have h5w : ¬ hasNextBlock (g ++ v) (dataEndAt (g ++ v) (g.length + k)) := by
            rw [hdw]
            intro hc
            exact h5.1 ((hasNextBlock_shift g v (dataEndAt v k)).mp hc)
          rw [tpb_meta_short hv h2 h3 h4 h5.1 h5.2]
          rw [tpb_meta_short hge (by omega) h3w (by rw [hdw]; omega) h5w (by rw [hdw]; omega)]
          simp
      · rw [tpb_payload_short hv h2 h3 (by omega)]
        rw [tpb_payload_short hge (by omega) h3w (by rw [hdw]; omega)]
        simp
    · have h3w : ¬ isValidHeader (g ++ v) (g.length + k) := by
        intro hc
        exact h3 ((isValidHeader_shift g v k).mp hc)
      rw [tpb_invalid hv h2 h3, tpb_invalid hge (by omega) h3w]
      simp
      omega
  · rw [tpb_short hv (by omega), tpb_short hge (by omega)]
    simp

theorem parse_garbage {g v : List Nat} (hg : firstEsc g = none) :
    (parse_buffer (g ++ v)).1 = (parse_buffer v).1 := by
  cases hv : firstEsc v with
  | none =>
    rw [parse_buffer_of_firstEsc_none (firstEsc_append_none_none v hg hv),
      parse_buffer_of_firstEsc_none hv]
  | some k =>
    have hT := tpb_garbage_shift hg hv
    by_cases hm : (tryParseBlock v).needs_more_data = true
    · have hmw : (tryParseBlock (g ++ v)).needs_more_data = true := by
        rw [hT]
        exact hm
      rw [parse_buffer_stall hmw, parse_buffer_stall hm]
    · have hm2 : (tryParseBlock v).needs_more_data = false := by
        cases hb : (tryParseBlock v).needs_more_data
        · rfl
        · exact absurd hb hm
      have hz : (tryParseBlock v).bytes_consumed ≠ 0 := tpb_consumed_pos hv hm2
      have hmw : (tryParseBlock (g ++ v)).needs_more_data = false := by
        rw [hT]
        exact hm2
      have hcw : (tryParseBlock (g ++ v)).bytes_consumed =
          g.length + (tryParseBlock v).bytes_consumed := by
        rw [hT]
        simp [hm2]
      have hzw : (tryParseBlock (g ++ v)).bytes_consumed ≠ 0 := by
        rw [hcw]
        omega
      rw [parse_buffer_step hmw hzw, parse_buffer_step hm2 hz]
      have hblock : (tryParseBlock (g ++ v)).block = (tryParseBlock v).block := by
        rw [hT]
      have hdrop : (g ++ v).drop (tryParseBlock (g ++ v)).bytes_consumed =
          v.drop (tryParseBlock v).bytes_consumed := by
        rw [hcw]
        exact List.drop_append (tryParseBlock v).bytes_consumed
      rw [hblock, hdrop]

/-! ## Claim C1: the split-feeding theorem -/

theorem split_obs_aux : ∀ n (xs ys : List Nat), xs.length ≤ n →
    ((parse_buffer (xs ++ ys)).1).map obsB =
      ((parse_buffer xs).1).map obsB ++
        ((parse_buffer ((parse_buffer xs).2 ++ ys)).1).map obsB := by
  intro n
  induction n with
  | zero =>
    intro xs ys hlen
    have hxs : xs = [] := by
      cases xs with
      | nil => rfl
      | cons a t => simp at hlen
    subst hxs
    simp [parse_buffer_nil]
  | succ nk ih =>
    intro xs ys hlen
    cases h0 : firstEsc xs with
    | none =>
      rw [parse_buffer_of_firstEsc_none h0]
      simp only [List.map_nil, List.nil_append]
      rw [parse_garbage h0]
    | some e =>
      by_cases hshort : xs.length < e + 10
      · have hst := tpb_short h0 hshort
        rw [parse_buffer_stall (show (tryParseBlock xs).needs_more_data = true by rw [hst])]
        simp
      · push_neg at hshort
        by_cases hvalid : isValidHeader xs e
        · by_cases hpay : xs.length < dataEndAt xs e
          · have hst := tpb_payload_short h0 hshort hvalid hpay
            rw [parse_buffer_stall (show (tryParseBlock xs).needs_more_data = true by rw [hst])]
            simp
          · push_neg at hpay
            by_cases hmeta : ¬ hasNextBlock xs (dataEndAt xs e) ∧
                xs.length < dataEndAt xs e + 10
            · have hst := tpb_meta_short h0 hshort hvalid hpay hmeta.1 hmeta.2
              rw [parse_buffer_stall (show (tryParseBlock xs).needs_more_data = true by rw [hst])]
              simp
            · have h5 : hasNextBlock xs (dataEndAt xs e) ∨
                  dataEndAt xs e + 10 ≤ xs.length := by
                by_cases hh : hasNextBlock xs (dataEndAt xs e)
                · exact Or.inl hh
                · right
                  by_contra hc
                  exact hmeta ⟨hh, by omega⟩
              have htx := tpb_emit h0 hshort hvalid hpay h5
              have hew : firstEsc (xs ++ ys) = some e := firstEsc_append_pre ys h0
              have hlw : (xs ++ ys).length = xs.length + ys.length := List.length_append xs ys
              have hvw : isValidHeader (xs ++ ys) e :=
                (isValidHeader_pre xs ys e hshort).mpr hvalid
              have hdw : dataEndAt (xs ++ ys) e = dataEndAt xs e := dataEndAt_pre xs ys e hshort
              have h5w : hasNextBlock (xs ++ ys) (dataEndAt (xs ++ ys) e) ∨
                  dataEndAt (xs ++ ys) e + 10 ≤ (xs ++ ys).length := by
                rw [hdw]
                rcases h5 with h5 | h5
                · exact Or.inl (hasNextBlock_mono ys hpay h5)
                · right
                  omega
              have htw := tpb_emit hew (by omega) hvw (by rw [hdw]; omega) h5w
              have hobs : obsB (buildBlock (xs ++ ys) e) = obsB (buildBlock xs e) :=
                obsB_buildBlock_pre xs ys e hshort hpay
              have h9 := dataEndAt_ge xs e
              cases hsp : firstEsc (xs.drop (dataEndAt xs e)) with
              | some t =>
                have hc : findNextBlockStart xs (dataEndAt xs e) = dataEndAt xs e + t := by
                  unfold findNextBlockStart
                  rw [skipToEsc_of_some hsp]
                have htlt : t < (xs.drop (dataEndAt xs e)).length := firstEsc_some_lt hsp
                have htlt2 : dataEndAt xs e + t < xs.length := by
                  rw [List.length_drop] at htlt
                  omega
                have hcw : findNextBlockStart (xs ++ ys) (dataEndAt (xs ++ ys) e) =
                    dataEndAt xs e + t := by
                  rw [hdw]
                  unfold findNextBlockStart
                  rw [List.drop_append_of_le_length hpay]
                  rw [skipToEsc_of_some (firstEsc_append_pre ys hsp)]
                rw [parse_buffer_step
                  (show (tryParseBlock (xs ++ ys)).needs_more_data = false by rw [htw])
                  (show (tryParseBlock (xs ++ ys)).bytes_consumed ≠ 0 by
                    rw [htw]; dsimp only; rw [hcw]; omega)]
                rw [parse_buffer_step
                  (show (tryParseBlock xs).needs_more_data = false by rw [htx])
                  (show (tryParseBlock xs).bytes_consumed ≠ 0 by
                    rw [htx]; dsimp only; rw [hc]; omega)]
                rw [htw, htx]
                dsimp only [optBlockList]
                rw [hc, hcw]
                rw [List.drop_append_of_le_length
                  (show dataEndAt xs e + t ≤ xs.length by omega)]
                simp only [List.map_cons, List.map_append, List.cons_append]
                rw [hobs]
                rw [ih (xs.drop (dataEndAt xs e + t)) ys (by rw [List.length_drop]; omega)]
                simp [List.append_assoc]
              | none =>
                have hc : findNextBlockStart xs (dataEndAt xs e) = xs.length := by
                  unfold findNextBlockStart
                  rw [skipToEsc_of_none hsp, List.length_drop]
                  omega
                have hcw : findNextBlockStart (xs ++ ys) (dataEndAt (xs ++ ys) e) =
                    xs.length + skipToEsc ys := by
                  rw [hdw]
                  unfold findNextBlockStart
                  rw [List.drop_append_of_le_length hpay]
                  rw [skipToEsc_append_none ys hsp, List.length_drop]
                  omega
                rw [parse_buffer_step
                  (show (tryParseBlock (xs ++ ys)).needs_more_data = false by rw [htw])
                  (show (tryParseBlock (xs ++ ys)).bytes_consumed ≠ 0 by
                    rw [htw]; dsimp only; rw [hcw]; omega)]
                rw [parse_buffer_step
                  (show (tryParseBlock xs).needs_more_data = false by rw [htx])
                  (show (tryParseBlock xs).bytes_consumed ≠ 0 by
                    rw [htx]; dsimp only; rw [hc]; omega)]
                rw [htw, htx]
                dsimp only [optBlockList]
                rw [hc, hcw]
                rw [List.drop_length, parse_buffer_nil]
                rw [show (xs ++ ys).drop (xs.length + skipToEsc ys) = ys.drop (skipToEsc ys)
                  from List.drop_append (skipToEsc ys)]
                have hgy : firstEsc (ys.take (skipToEsc ys)) = none :=
                  firstEsc_eq_none_of (skipToEsc_take_no_esc ys)
                have hyy : (parse_buffer (ys.take (skipToEsc ys) ++ ys.drop (skipToEsc ys))).1 =
                    (parse_buffer (ys.drop (skipToEsc ys))).1 := parse_garbage hgy
                rw [List.take_append_drop] at hyy
                simp only [List.map_cons, List.map_append, List.cons_append, List.map_nil,
                  List.nil_append]
                rw [hobs, ← hyy]
        · have htx := tpb_invalid h0 hshort hvalid
          have hew : firstEsc (xs ++ ys) = some e := firstEsc_append_pre ys h0
          have hvw : ¬ isValidHeader (xs ++ ys) e := by
            intro hc
            exact hvalid ((isValidHeader_pre xs ys e hshort).mp hc)
          have htw : tryParseBlock (xs ++ ys) = ⟨none, e + 1, false⟩ :=
            tpb_invalid hew (by simp only [List.length_append]; omega) hvw
          rw [parse_buffer_step
            (show (tryParseBlock (xs ++ ys)).needs_more_data = false by rw [htw])
            (show (tryParseBlock (xs ++ ys)).bytes_consumed ≠ 0 by rw [htw]; simp)]
          rw [parse_buffer_step
            (show (tryParseBlock xs).needs_more_data = false by rw [htx])
            (show (tryParseBlock xs).bytes_consumed ≠ 0 by rw [htx]; simp)]
          rw [htw, htx]
          dsimp only [optBlockList]
          rw [List.drop_append_of_le_length (show e + 1 ≤ xs.length by omega)]
          simp only [List.map_nil, List.nil_append]
          rw [ih (xs.drop (e + 1)) ys (by rw [List.length_drop]; omega)]

/-- Claim C1 counterexample: split-feeding c1Buf at offset 19 yields a block
without an exam number, while the single whole-buffer call yields the same
frame with exam number 1 — the block lists are not equal. -/
theorem claim_C1_counterexample :
    ((parse_buffer c1Buf).1).map PPGBlock.exam_number = [some 1] ∧
    (((parse_buffer c1Xs).1 ++ (parse_buffer ((parse_buffer c1Xs).2 ++ c1Ys)).1).map
      PPGBlock.exam_number) = [none] ∧
    (parse_buffer c1Buf).1 ≠
      (parse_buffer c1Xs).1 ++ (parse_buffer ((parse_buffer c1Xs).2 ++ c1Ys)).1 := by
  refine ⟨by decide, by decide, by decide⟩

/-- Claim C1 amended: for every byte buffer and every split point, feeding
the two halves through two sequential parse_buffer calls (prepending the
first remainder to the second half) yields the same blocks as a single call
on the whole buffer when blocks are compared by label byte, raw samples and
trimmed samples; exam numbers and hardware metadata of a block whose
trailing metadata window is cut by the split may differ (see the
counterexample). -/
theorem claim_C1 (xs ys : List Nat) :
    ((parse_buffer (xs ++ ys)).1).map obsB =
      ((parse_buffer xs).1).map obsB ++
        ((parse_buffer ((parse_buffer xs).2 ++ ys)).1).map obsB :=
  split_obs_aux xs.length xs ys le_rfl

/-! ## Claim C7: the To extrapolation -/

/-- C7 counterexample: on a 10-sample recovery segment the source computes
the slope from the last 5 samples, not from at least the last 10: on c7List
the last-5 slope is positive (code returns the 480-sample cap) while the
last-10 slope demanded by the claim is negative and gives a finite crossing
72/5. -/
theorem claim_C7_counterexample :
    extrapolateCrossing c7List 20 = some 480 ∧
    extrapolateCrossingSpecTen c7List 20 = some (72/5) ∧
    extrapolateCrossing c7List 20 ≠ extrapolateCrossingSpecTen c7List 20 := by
  have h1 : extrapolateCrossing c7List 20 = some 480 := by
    norm_num [extrapolateCrossing, extraSlope, nFit, c7List, List.getD]
  have h2 : extrapolateCrossingSpecTen c7List 20 = some (72/5) := by
    have habs : |(50 : ℚ)/9| = 50/9 := by
      rw [abs_of_pos]
      norm_num
    norm_num [extrapolateCrossingSpecTen, c7List, List.getD, habs]
  refine ⟨h1, h2, ?_⟩
  rw [h1, h2]
  simp only [ne_eq, Option.some.injEq]
  norm_num

/-- C7 amended: when the To threshold is never crossed, the extrapolation
uses the slope of the last max(min(10, n/2), 5) samples — at least 10 only
when the segment has at least 20 samples, as few as 5 otherwise; a
non-negative slope yields the 480-sample (120 s) cap; when the slope is
negative and the last sample is still above the threshold the extrapolated
crossing index is capped at 480 samples. -/
theorem claim_C7 (samples : List ℚ) (level : ℚ) (h : 10 ≤ samples.length) :
    ∃ v, extrapolateCrossing samples level = some v ∧
      v ≤ max 480 ((samples.length : ℚ) - 1) ∧
      (0 ≤ extraSlope samples → v = 480) ∧
      (extraSlope samples < 0 → level < samples.getD (samples.length - 1) 0 → v ≤ 480) ∧
      nFit samples.length = max (min 10 (samples.length / 2)) 5 ∧
      (20 ≤ samples.length → nFit samples.length = 10) := by
  have hnf : 20 ≤ samples.length → nFit samples.length = 10 := by
    intro h20
    unfold nFit
    omega
  unfold extrapolateCrossing
  rw [if_neg (by omega)]
  dsimp only
  by_cases hs : extraSlope samples ≥ 0
  · rw [if_pos hs]
    refine ⟨480, rfl, le_max_left _ _, fun _ => rfl, ?_, rfl, hnf⟩
    intro hneg _
    exact absurd hs (not_le.mpr hneg)
  · rw [if_neg hs]
    push_neg at hs
    by_cases hr : samples.getD (samples.length - 1) 0 - level ≤ 0
    · rw [if_pos hr]
      refine ⟨(samples.length : ℚ) - 1, rfl, le_max_right _ _, ?_, ?_, rfl, hnf⟩
      · intro h0
        exact absurd h0 (not_le.mpr hs)
      · intro _ hlast
        linarith
    · rw [if_neg hr]
      by_cases hc : 480 < ((samples.length : ℚ) - 1) +
          (samples.getD (samples.length - 1) 0 - level) / |extraSlope samples|
      · rw [if_pos hc]
        refine ⟨480, rfl, le_max_left _ _, ?_, fun _ _ => le_refl _, rfl, hnf⟩
        intro h0
        exact absurd h0 (not_le.mpr hs)
      · rw [if_neg hc]
        push_neg at hc
        refine ⟨_, rfl, le_trans hc (le_max_left _ _), ?_, fun _ _ => hc, rfl, hnf⟩
        intro h0
        exact absurd h0 (not_le.mpr hs)

/-- C7 witness: the amended statement evaluated on a flat 10-sample
segment: the slope is 0, so the extrapolation returns the cap 480. -/
theorem claim_C7_witness :
    10 ≤ c7Flat.length ∧ extrapolateCrossing c7Flat 50 = some 480 := by
  have h10 : 10 ≤ c7Flat.length := by norm_num [c7Flat]
  obtain ⟨v, hv, hcap, hpos, hneg, hnf, h20⟩ := claim_C7 c7Flat 50 h10
  have hs : 0 ≤ extraSlope c7Flat := by
    norm_num [extraSlope, nFit, c7Flat, List.getD, List.replicate]
  exact ⟨h10, by rw [hv, hpos hs]⟩

/-! ## Claims C2, C6, C10: the parameter engine -/

theorem calculateTi_le_120 {samples : List ℚ} {peak_idx : Nat} {pv bl sr t : ℚ}
    (h : calculateTi samples peak_idx pv bl sr = some t) : t ≤ 120 := by
  unfold calculateTi at h
  dsimp only at h
  by_cases h1 : pv - bl ≤ 0
  · rw [if_pos h1] at h
    exact absurd h (by simp)
  rw [if_neg h1] at h
  by_cases h2 : peak_idx + (⌊3 * sr⌋).toNat ≥ samples.length
  · rw [if_pos h2] at h
    exact absurd h (by simp)
  rw [if_neg h2] at h
  by_cases h3 : pv - samples.getD (tiTargetIdx samples peak_idx pv sr) 0 ≤ 0
  · rw [if_pos h3] at h
    have h4 := Option.some.inj h
    linarith
  · rw [if_neg h3] at h
    have h4 := Option.some.inj h
    have hfin : ∀ x : ℚ, (if 120 < x then (120 : ℚ) else x) ≤ 120 := by
      intro x
      by_cases hx : 120 < x
      · rw [if_pos hx]
      · rw [if_neg hx]
        exact le_of_not_lt hx
    rw [← h4]
    exact hfin _

theorem calculateTi_denominator_cap {samples : List ℚ} {peak_idx : Nat} {pv bl sr : ℚ}
    (h1 : 0 < pv - bl) (h2 : peak_idx + (⌊3 * sr⌋).toNat < samples.length)
    (h3 : pv ≤ samples.getD (tiTargetIdx samples peak_idx pv sr) 0) :
    calculateTi samples peak_idx pv bl sr = some 120 := by
  unfold calculateTi
  dsimp only
  rw [if_neg (by linarith), if_neg (by omega), if_pos (by linarith)]

theorem calculate_parameters_inv {block : PPGBlock} {p : PPGParameters}
    (h : calculate_parameters block = some p) :
    ∃ (peak_idx : Nat) (To Ti : ℚ),
      cpPeakOpt block = some peak_idx ∧
      cpToOpt block peak_idx = some To ∧
      cpTiOpt block peak_idx = some Ti ∧
      0 < To ∧ 0 < cpTh block peak_idx ∧ 0 < Ti ∧ 1/2 ≤ cpVo block peak_idx ∧
      p.To = roundTo1 To ∧ p.Th = roundTo1 (cpTh block peak_idx) ∧
      p.Ti = roundTo0 Ti ∧ p.Vo = roundTo1 (cpVo block peak_idx) := by
  unfold calculate_parameters at h
  by_cases h1 : (cpSamples block).length < 40
  · rw [if_pos h1] at h
    exact absurd h (by simp)
  rw [if_neg h1] at h
  cases hpk : cpPeakOpt block with
  | none =>
    rw [hpk] at h
    exact absurd h (by simp)
  | some peak_idx =>
    rw [hpk] at h
    dsimp only at h
    by_cases h2 : cpAmplitudeVo block peak_idx ≤ 0 ∨ cpInitialBaseline block ≤ 0
    · rw [if_pos h2] at h
      exact absurd h (by simp)
    rw [if_neg h2] at h
    by_cases h3 : cpVo block peak_idx < 1/2
    · rw [if_pos h3] at h
      exact absurd h (by simp)
    rw [if_neg h3] at h
    by_cases h4 : (cpRecovery block peak_idx).length < 10
    · rw [if_pos h4] at h
      exact absurd h (by simp)
    rw [if_neg h4] at h
    cases hTo : cpToOpt block peak_idx with
    | none =>
      rw [hTo] at h
      exact absurd h (by simp)
    | some To =>
      cases hTi : cpTiOpt block peak_idx with
      | none =>
        rw [hTo, hTi] at h
        exact absurd h (by simp)
      | some Ti =>
        rw [hTo, hTi] at h
        dsimp only at h
        by_cases h5 : To ≤ 0 ∨ cpTh block peak_idx ≤ 0 ∨ Ti ≤ 0
        · rw [if_pos h5] at h
          exact absurd h (by simp)
        rw [if_neg h5] at h
        push_neg at h5
        have hrec := Option.some.inj h
        refine ⟨peak_idx, To, Ti, rfl, hTo, hTi, h5.1, h5.2.1, h5.2.2,
          le_of_not_lt h3, ?_, ?_, ?_, ?_⟩
        all_goals rw [← hrec]

theorem intToNat0 : Int.toNat 0 = 0 := rfl

theorem intToNat12 : Int.toNat 12 = 12 := rfl

theorem intToNat24 : Int.toNat 24 = 24 := rfl

set_option maxHeartbeats 4000000 in
theorem calculate_parameters_c2Block : calculate_parameters c2Block = some c2Params := by
  norm_num [calculate_parameters, cpSamples, toQ, cpInitialBaseline, cpStableBaseline,
    cpPeakOpt, cpPeakValue, cpAmplitudeVo, cpVo, cpRecovery, cpTh, cpTiOpt, cpLevelTo,
    cpToSamplesOpt, cpToOpt, cpFoEndIdx, cpFo, cpToEndIndex, cpExerciseStart, cpTau,
    hasHw, hwTiUsed, hwToUsed, softwarePeak, listMaxQ, movingAvg, argmaxQ, argmaxQAux,
    medianQ, findCrossing, findCrossingAux, calculateTi, tiTargetIdx, calculateFo,
    extrapolateCrossing, extraSlope, nFit, calculateTau, exerciseStart, exerciseStartAux,
    roundTo1, roundTo0, pyRound, List.insertionSort, List.orderedInsert, List.getD,
    List.replicate, max_def, min_def, intToNat0, intToNat12, intToNat24,
    c2Block, c2Samples, swBlock, c2Params]

set_option maxHeartbeats 4000000 in
theorem calculate_parameters_c6Block : calculate_parameters c6Block = some c6Params := by
  norm_num [calculate_parameters, cpSamples, toQ, cpInitialBaseline, cpStableBaseline,
    cpPeakOpt, cpPeakValue, cpAmplitudeVo, cpVo, cpRecovery, cpTh, cpTiOpt, cpLevelTo,
    cpToSamplesOpt, cpToOpt, cpFoEndIdx, cpFo, cpToEndIndex, cpExerciseStart, cpTau,
    hasHw, hwTiUsed, hwToUsed, softwarePeak, listMaxQ, movingAvg, argmaxQ, argmaxQAux,
    medianQ, findCrossing, findCrossingAux, calculateTi, tiTargetIdx, calculateFo,
    extrapolateCrossing, extraSlope, nFit, calculateTau, exerciseStart, exerciseStartAux,
    roundTo1, roundTo0, pyRound, List.insertionSort, List.orderedInsert, List.getD,
    List.replicate, max_def, min_def, intToNat0, intToNat12, intToNat24,
    c6Block, c6Params]

set_option maxHeartbeats 4000000 in
theorem calculate_parameters_c6SwTiBlock :
    calculate_parameters c6SwTiBlock = some c6SwTiParams := by
  norm_num [calculate_parameters, cpSamples, toQ, cpInitialBaseline, cpStableBaseline,
    cpPeakOpt, cpPeakValue, cpAmplitudeVo, cpVo, cpRecovery, cpTh, cpTiOpt, cpLevelTo,
    cpToSamplesOpt, cpToOpt, cpFoEndIdx, cpFo, cpToEndIndex, cpExerciseStart, cpTau,
    hasHw, hwTiUsed, hwToUsed, softwarePeak, listMaxQ, movingAvg, argmaxQ, argmaxQAux,
    medianQ, findCrossing, findCrossingAux, calculateTi, tiTargetIdx, calculateFo,
    extrapolateCrossing, extraSlope, nFit, calculateTau, exerciseStart, exerciseStartAux,
    roundTo1, roundTo0, pyRound, List.insertionSort, List.orderedInsert, List.getD,
    List.replicate, max_def, min_def, intToNat0, intToNat12, intToNat24,
    c6SwTiBlock, c6SwTiParams]

set_option maxHeartbeats 4000000 in
theorem calculate_parameters_c10Block : calculate_parameters c10Block = some c10Params := by
  norm_num [calculate_parameters, cpSamples, toQ, cpInitialBaseline, cpStableBaseline,
    cpPeakOpt, cpPeakValue, cpAmplitudeVo, cpVo, cpRecovery, cpTh, cpTiOpt, cpLevelTo,
    cpToSamplesOpt, cpToOpt, cpFoEndIdx, cpFo, cpToEndIndex, cpExerciseStart, cpTau,
    hasHw, hwTiUsed, hwToUsed, softwarePeak, listMaxQ, movingAvg, argmaxQ, argmaxQAux,
    medianQ, findCrossing, findCrossingAux, calculateTi, tiTargetIdx, calculateFo,
    extrapolateCrossing, extraSlope, nFit, calculateTau, exerciseStart, exerciseStartAux,
    roundTo1, roundTo0, pyRound, List.insertionSort, List.orderedInsert, List.getD,
    List.replicate, max_def, min_def, intToNat0, intToNat12, intToNat24,
    c10Block, c10Params]

/-- Claim C2 counterexample: on c2Block the computation succeeds with
pre-rounding values To = 97/8400, Th = 1/168, Ti = 1/7, all strictly
positive, but the returned rounded fields To, Th and Ti are all exactly 0 —
not strictly greater than 0 as the claim states. -/
theorem claim_C2_counterexample :
    (calculate_parameters c2Block).map (fun p => (p.To, p.Th, p.Ti, p.Vo)) =
      some (0, 0, 0, 1) := by
  rw [calculate_parameters_c2Block]
  norm_num [c2Params]

/-- Claim C2 amended: whenever calculate_parameters returns a value, the
pre-rounding To, Th, Ti are strictly positive and Vo is at least 0.5, so
the returned fields satisfy To ≥ 0, Th ≥ 0, Ti ≥ 0 (rounding to 1 or 0
decimals can collapse a small positive value to exactly 0) and Vo ≥ 0.5. -/
theorem claim_C2 (block : PPGBlock) (p : PPGParameters)
    (h : calculate_parameters block = some p) :
    0 ≤ p.To ∧ 0 ≤ p.Th ∧ 0 ≤ p.Ti ∧ 1/2 ≤ p.Vo := by
  obtain ⟨pk, To, Ti, hpk, hTo, hTi, hTo0, hTh0, hTi0, hVo, eTo, eTh, eTi, eVo⟩ :=
    calculate_parameters_inv h
  refine ⟨?_, ?_, ?_, ?_⟩
  · rw [eTo]
    exact roundTo1_nonneg (le_of_lt hTo0)
  · rw [eTh]
    exact roundTo1_nonneg (le_of_lt hTh0)
  · rw [eTi]
    exact roundTo0_nonneg (le_of_lt hTi0)
  · rw [eVo]
    exact roundTo1_ge_half hVo

/-- Claim C2 witness: the amended statement evaluated on the concrete block
c6Block, whose result is known exactly. -/
theorem claim_C2_witness :
    calculate_parameters c6Block = some c6Params ∧
    0 ≤ c6Params.To ∧ 0 ≤ c6Params.Th ∧ 0 ≤ c6Params.Ti ∧ 1/2 ≤ c6Params.Vo :=
  ⟨calculate_parameters_c6Block, claim_C2 c6Block c6Params calculate_parameters_c6Block⟩

/-- Claim C6 counterexample: c6Block carries hardware metadata with
hw_Ti = 200; calculate_parameters returns a result whose Ti field is 200,
exceeding the claimed 120-second cap — the cap applies only to the software
Ti path. -/
theorem claim_C6_counterexample :
    (calculate_parameters c6Block).map PPGParameters.Ti = some 200 := by
  rw [calculate_parameters_c6Block]
  norm_num [c6Params]

/-- Claim C6 amended: whenever calculate_parameters returns a result and the
hardware Ti is not used (absent or non-positive), the returned Ti is at most
120 seconds; and in _calculate_ti, when the value at the look-ahead window
end is not below the peak value (denominator ≤ 0), the result is exactly
120 seconds. -/
theorem claim_C6 :
    (∀ (block : PPGBlock) (p : PPGParameters), calculate_parameters block = some p →
      ¬ hwTiUsed block → p.Ti ≤ 120) ∧
    (∀ (samples : List ℚ) (peak_idx : Nat) (pv bl sr : ℚ),
      0 < pv - bl → peak_idx + (⌊3 * sr⌋).toNat < samples.length →
      pv ≤ samples.getD (tiTargetIdx samples peak_idx pv sr) 0 →
      calculateTi samples peak_idx pv bl sr = some 120) := by
  constructor
  · intro block p h hsw
    obtain ⟨pk, To, Ti, hpk, hTo, hTi, _, _, hTi0, _, _, _, eTi, _⟩ :=
      calculate_parameters_inv h
    have hcp : cpTiOpt block pk = calculateTi (cpSamples block) pk (cpPeakValue block pk)
        (cpInitialBaseline block) 4 := by
      unfold cpTiOpt
      rw [if_neg hsw]
    rw [hcp] at hTi
    have hle : Ti ≤ 120 := calculateTi_le_120 hTi
    rw [eTi]
    exact roundTo0_le_120 hle
  · intro samples peak_idx pv bl sr h1 h2 h3
    exact calculateTi_denominator_cap h1 h2 h3

/-- Claim C6 witness: both parts of the amended statement at concrete
inputs — the software-Ti block c6SwTiBlock returns Ti = 120 ≤ 120, and a
flat 13-sample list with the peak at index 0 makes the denominator
non-positive, forcing Ti = 120. -/
theorem claim_C6_witness :
    (calculate_parameters c6SwTiBlock = some c6SwTiParams ∧ c6SwTiParams.Ti ≤ 120) ∧
    calculateTi (List.replicate 13 (100 : ℚ)) 0 100 50 4 = some 120 := by
  constructor
  · exact ⟨calculate_parameters_c6SwTiBlock,
      claim_C6.1 c6SwTiBlock c6SwTiParams calculate_parameters_c6SwTiBlock
        (by simp [hwTiUsed, c6SwTiBlock])⟩
  · apply claim_C6.2
    · norm_num
    · norm_num [intToNat12]
    · norm_num [tiTargetIdx, List.getD, List.replicate, intToNat12, intToNat24]

/-! ## Claim C10: the rejection boundary -/

theorem toQ_cons (x : Nat) (xs : List Nat) : toQ (x :: xs) = (x : ℚ) :: toQ xs := rfl

theorem toQ_length (l : List Nat) : (toQ l).length = l.length := by
  induction l with
  | nil => rfl
  | cons x xs ih =>
    rw [toQ_cons, List.length_cons, List.length_cons, ih]

theorem toQ_replicate (n c : Nat) :
    toQ (List.replicate n c) = List.replicate n ((c : Nat) : ℚ) := by
  induction n with
  | zero => rfl
  | succ m ih =>
    simp only [List.replicate_succ]
    rw [toQ_cons, ih]

theorem getD_replicate_q {n i : Nat} (c d : ℚ) (h : i < n) :
    (List.replicate n c).getD i d = c := by
  induction n generalizing i with
  | zero => omega
  | succ m ih =>
    cases i with
    | zero => rfl
    | succ j =>
      simp only [List.replicate_succ, List.getD_cons_succ]
      exact ih (by omega)

theorem orderedInsert_replicate (k : Nat) (c : ℚ) :
    List.orderedInsert (· ≤ ·) c (List.replicate k c) = List.replicate (k + 1) c := by
  cases k with
  | zero => rfl
  | succ m =>
    simp only [List.replicate_succ, List.orderedInsert]
    rw [if_pos (le_refl c)]

theorem insertionSort_replicate (n : Nat) (c : ℚ) :
    List.insertionSort (· ≤ ·) (List.replicate n c) = List.replicate n c := by
  induction n with
  | zero => rfl
  | succ m ih =>
    simp only [List.replicate_succ, List.insertionSort]
    rw [ih]
    exact orderedInsert_replicate m c

theorem medianQ_replicate (n : Nat) (c : ℚ) (h : 0 < n) :
    medianQ (List.replicate n c) = c := by
  unfold medianQ
  dsimp only
  rw [insertionSort_replicate]
  simp only [List.length_replicate]
  by_cases hodd : n % 2 = 1
  · rw [if_pos hodd]
    exact getD_replicate_q c 0 (by omega)
  · rw [if_neg hodd]
    rw [getD_replicate_q c 0 (by omega), getD_replicate_q c 0 (by omega)]
    ring

theorem listMaxQ_replicate (m : Nat) (c : ℚ) : listMaxQ (List.replicate (m + 1) c) = c := by
  have haux : ∀ k, (List.replicate k c).foldl max c = c := by
    intro k
    induction k with
    | zero => rfl
    | succ j ih =>
      simp only [List.replicate_succ, List.foldl_cons, max_self]
      exact ih
  simp only [List.replicate_succ, listMaxQ]
  exact haux m

theorem argmaxQAux_const (c : ℚ) : ∀ k i best, argmaxQAux (List.replicate k c) i c best = best := by
  intro k
  induction k with
  | zero => intro i best; rfl
  | succ j ih =>
    intro i best
    simp only [List.replicate_succ, argmaxQAux]
    rw [if_neg (lt_irrefl c)]
    exact ih (i + 1) best

theorem argmaxQ_replicate (m : Nat) (c : ℚ) : argmaxQ (List.replicate (m + 1) c) = 0 := by
  simp only [List.replicate_succ, argmaxQ]
  exact argmaxQAux_const c m 1 0

theorem softwarePeak_flat (c : ℚ) : softwarePeak (List.replicate 40 c) c = some 5 := by
  unfold softwarePeak
  dsimp only
  simp only [List.length_replicate]
  rw [if_neg (by omega)]
  have hmax : listMaxQ (List.replicate 40 c) = c := listMaxQ_replicate 39 c
  rw [hmax]
  have hvo : (if 0 < c then (c - c) / c * 100 else 0) < 3 := by
    by_cases hc : 0 < c
    · rw [if_pos hc]
      rw [sub_self, zero_div, zero_mul]
      norm_num
    · rw [if_neg hc]
      norm_num
  rw [if_pos hvo]
  rw [List.drop_replicate, List.take_replicate]
  norm_num
  rw [show (25 : Nat) = 24 + 1 from rfl, argmaxQ_replicate]
  decide

/-- Claim C10 counterexample: a block of exactly 40 constant samples whose
hardware metadata is present does NOT return None — the hardware amplitude
bypasses the zero software amplitude and a full result is produced. -/
theorem claim_C10_counterexample :
    c10Block.samples = List.replicate 40 100 ∧
    calculate_parameters c10Block = some c10Params :=
  ⟨rfl, calculate_parameters_c10Block⟩

/-- Claim C10 amended: a block with fewer than 40 samples always yields
None; and a block of exactly 40 constant samples WITHOUT hardware metadata
yields None, because the amplitude above the initial baseline is zero.
With hardware metadata present the zero-amplitude rejection does not apply
(see the counterexample). -/
theorem claim_C10 :
    (∀ block : PPGBlock, block.samples.length < 40 → calculate_parameters block = none) ∧
    (∀ (block : PPGBlock) (c : Nat), ¬ hasHw block → block.samples = List.replicate 40 c →
      calculate_parameters block = none) := by
  constructor
  · intro block h
    unfold calculate_parameters
    rw [if_pos (by unfold cpSamples; rw [toQ_length]; omega)]
  · intro block c hnohw hflat
    have hs : cpSamples block = List.replicate 40 ((c : Nat) : ℚ) := by
      unfold cpSamples
      rw [hflat]
      exact toQ_replicate 40 c
    have hib : cpInitialBaseline block = ((c : Nat) : ℚ) := by
      unfold cpInitialBaseline
      rw [if_neg hnohw, hs, List.take_replicate]
      exact medianQ_replicate _ _ (by norm_num)
    have hpk : cpPeakOpt block = some 5 := by
      unfold cpPeakOpt
      rw [if_neg (fun hc => hnohw hc.1), hs, hib]
      exact softwarePeak_flat _
    have hpv : cpPeakValue block 5 = ((c : Nat) : ℚ) := by
      unfold cpPeakValue
      rw [hs]
      exact getD_replicate_q _ _ (by norm_num)
    have hamp : cpAmplitudeVo block 5 = 0 := by
      unfold cpAmplitudeVo
      rw [if_neg (fun hc => hnohw hc.1), hpv, hib]
      ring
    unfold calculate_parameters
    rw [if_neg (by rw [hs]; simp), hpk]
    dsimp only
    rw [if_pos (Or.inl (le_of_eq hamp))]

/-- Claim C10 witness: the amended statement at a 39-sample block and at a
flat 40-sample block without hardware metadata. -/
theorem claim_C10_witness :
    calculate_parameters (swBlock 225 (List.replicate 39 100)) = none ∧
    calculate_parameters (swBlock 225 (List.replicate 40 100)) = none := by
  constructor
  · exact claim_C10.1 _ (by simp [swBlock])
  · exact claim_C10.2 _ 100 (by simp [hasHw, swBlock]) rfl

/-! ## Claim C5: totality lemmas -/

theorem get?_eq_getD {α : Type} {l : List α} {i : Nat} (d : α) (h : i < l.length) :
    l.get? i = some (l.getD i d) := by
  rw [List.getD_eq_get?, List.get?_eq_get h]
  rfl

theorem divQC_eq {b : ℚ} (a : ℚ) (h : b ≠ 0) : divQC a b = some (a / b) := by
  unfold divQC
  rw [if_neg h]

theorem listMaxNC_eq {l : List Nat} (h : 0 < l.length) : listMaxNC l = some (listMaxN l) := by
  cases l with
  | nil => simp at h
  | cons x xs => rfl

theorem listMinNC_eq {l : List Nat} (h : 0 < l.length) : listMinNC l = some (listMinN l) := by
  cases l with
  | nil => simp at h
  | cons x xs => rfl

theorem listMaxQC_eq {l : List ℚ} (h : 0 < l.length) : listMaxQC l = some (listMaxQ l) := by
  cases l with
  | nil => simp at h
  | cons x xs => rfl

theorem argmaxQC_eq {l : List ℚ} (h : 0 < l.length) : argmaxQC l = some (argmaxQ l) := by
  cases l with
  | nil => simp at h
  | cons x xs => rfl

theorem medianQC_eq {l : List ℚ} (h : 0 < l.length) : medianQC l = some (medianQ l) := by
  unfold medianQC medianQ
  dsimp only
  have hlen : (List.insertionSort (· ≤ ·) l).length = l.length :=
    List.length_insertionSort _ _
  by_cases hodd : (List.insertionSort (· ≤ ·) l).length % 2 = 1
  · rw [if_pos hodd, if_pos hodd, get?_eq_getD 0 (by omega)]
  · rw [if_neg hodd, if_neg hodd, get?_eq_getD 0 (by omega), get?_eq_getD 0 (by omega)]

theorem trimStatsC_eq (samples : List Nat) (h : 15 ≤ samples.length) :
    trimStatsC samples = some (trimStats samples) := by
  unfold trimStatsC trimStats
  dsimp only
  have hnm : (List.insertionSort (· ≤ ·) (samples.take (samples.length - 5))).length
      = min (samples.length - 5) samples.length := by
    rw [List.length_insertionSort, List.length_take]
  rw [get?_eq_getD 0 (by omega), get?_eq_getD 0 (by omega), get?_eq_getD 0 (by omega)]

theorem trimAfterStatsC_eq (samples : List Nat) (median iqr : Nat) (h : 15 ≤ samples.length) :
    trimAfterStatsC samples median iqr = some (trimAfterStats samples median iqr) := by
  unfold trimAfterStatsC trimAfterStats
  dsimp only
  cases hf : (samples.drop (samples.length - 5)).findIdx? (trimOutlierB median iqr) with
  | some j => rfl
  | none =>
    have h5 : 0 < (samples.drop (samples.length - 5)).length := by
      rw [List.length_drop]; omega
    rw [listMaxNC_eq h5, listMinNC_eq h5]
    dsimp only
    by_cases h20 : 20 ≤ (samples.take (samples.length - 5)).length
    · have h20p : 0 < ((samples.take (samples.length - 5)).drop
          ((samples.take (samples.length - 5)).length - 20)).length := by
        rw [List.length_drop, List.length_take]; omega
      rw [if_pos h20, if_pos h20, listMaxNC_eq h20p, listMinNC_eq h20p]
      dsimp only
      split
      · cases (samples.drop (samples.length - 5)).findIdx? (trimDeviantB median iqr) with
        | some j => rfl
        | none => rfl
      · rfl
    · rw [if_neg h20, if_neg h20]
      dsimp only
      split
      · cases (samples.drop (samples.length - 5)).findIdx? (trimDeviantB median iqr) with
        | some j => rfl
        | none => rfl
      · rfl

theorem trimTrailing_eq_afterStats (l : List Nat) (h : 15 ≤ l.length) :
    trimTrailingArtifacts l =
      trimAfterStats l (trimStats l).1
        (if (trimStats l).2.1 < (trimStats l).2.2
         then (trimStats l).2.2 - (trimStats l).2.1 else 50) := by
  unfold trimTrailingArtifacts trimAfterStats trimStats
  rw [if_neg (by omega)]
  rw [if_neg (by simp [List.length_take]; omega)]

theorem trimTrailingArtifactsC_eq (samples : List Nat) :
    trimTrailingArtifactsC samples = some (trimTrailingArtifacts samples) := by
  by_cases h15 : samples.length < 15
  · unfold trimTrailingArtifactsC trimTrailingArtifacts
    rw [if_pos h15, if_pos h15]
  · have h10 : ¬ (samples.take (samples.length - 5)).length < 10 := by
      rw [List.length_take]; omega
    unfold trimTrailingArtifactsC
    dsimp only
    rw [if_neg h15, if_neg h10, trimStatsC_eq samples (by omega)]
    dsimp only
    rw [trimAfterStatsC_eq samples _ _ (by omega)]
    rw [trimTrailing_eq_afterStats samples (by omega)]

theorem mkPPGBlockC_eq (label_byte : Nat) (samples : List Nat) (exam_number : Option Nat)
    (metadata_raw : List Nat) :
    mkPPGBlockC label_byte samples exam_number metadata_raw =
      some (mkPPGBlock label_byte samples exam_number metadata_raw) := by
  unfold mkPPGBlockC
  rw [trimTrailingArtifactsC_eq]
  rfl

theorem isValidHeaderC_eq {buffer : List Nat} {pos : Nat} (h : pos + 10 ≤ buffer.length) :
    isValidHeaderC buffer pos = some (if isValidHeader buffer pos then true else false) := by
  unfold isValidHeaderC isValidHeader
  rw [get?_eq_getD 0 (by omega), get?_eq_getD 0 (by omega), get?_eq_getD 0 (by omega),
      get?_eq_getD 0 (by omega)]

theorem numSamplesAtC_eq {buffer : List Nat} {e : Nat} (h : e + 10 ≤ buffer.length) :
    numSamplesAtC buffer e = some (numSamplesAt buffer e) := by
  unfold numSamplesAtC numSamplesAt
  rw [get?_eq_getD 0 (by omega), get?_eq_getD 0 (by omega)]

theorem extractSamplesAuxC_eq (buffer : List Nat) (endp : Nat) :
    ∀ fuel i, extractSamplesAuxC buffer endp fuel i =
      some (extractSamplesAux buffer endp fuel i) := by
  intro fuel
  induction fuel with
  | zero => intro i; rfl
  | succ f ih =>
    intro i
    unfold extractSamplesAuxC extractSamplesAux
    by_cases h1 : i < endp
    · rw [if_pos h1, if_pos h1]
      by_cases h2 : i + 1 < buffer.length
      · rw [if_pos h2, if_pos h2, get?_eq_getD 0 (by omega), get?_eq_getD 0 h2, ih (i + 2)]
        rfl
      · rw [if_neg h2, if_neg h2, ih (i + 2)]
        rfl
    · rw [if_neg h1, if_neg h1]

theorem examScanAuxC_eq (metadata : List Nat) :
    ∀ fuel i, examScanAuxC metadata fuel i = some (examScanAux metadata fuel i) := by
  intro fuel
  induction fuel with
  | zero => intro i; rfl
  | succ f ih =>
    intro i
    unfold examScanAuxC examScanAux
    by_cases h6 : i + 6 ≤ metadata.length
    · rw [if_pos h6, if_pos h6]
      rw [get?_eq_getD 0 (by omega), get?_eq_getD 0 (by omega), get?_eq_getD 0 (by omega),
          get?_eq_getD 0 (by omega), get?_eq_getD 0 (by omega), get?_eq_getD 0 (by omega)]
      dsimp only
      by_cases hz : metadata.getD i 0 = 0 ∧ metadata.getD (i + 1) 0 = 0 ∧
          metadata.getD (i + 2) 0 = 0 ∧ metadata.getD (i + 3) 0 = GSB
      · rw [if_pos hz, if_pos hz]
        by_cases hex : 1 ≤ Nat.lor (metadata.getD (i + 4) 0) ((metadata.getD (i + 5) 0) <<< 8) ∧
            Nat.lor (metadata.getD (i + 4) 0) ((metadata.getD (i + 5) 0) <<< 8) ≤ 9999
        · rw [if_pos hex, if_pos hex]
        · rw [if_neg hex, if_neg hex]
          exact ih (i + 1)
      · rw [if_neg hz, if_neg hz]
        exact ih (i + 1)
    · rw [if_neg h6, if_neg h6]

theorem applyHwMetadataC_eq (block : PPGBlock) {payload : List Nat} (h : 10 ≤ payload.length) :
    applyHwMetadataC block payload = some (applyHwMetadata block payload) := by
  unfold applyHwMetadataC applyHwMetadata
  rw [get?_eq_getD 0 (by omega), get?_eq_getD 0 (by omega), get?_eq_getD 0 (by omega),
      get?_eq_getD 0 (by omega), get?_eq_getD 0 (by omega), get?_eq_getD 0 (by omega),
      get?_eq_getD 0 (by omega), get?_eq_getD 0 (by omega), get?_eq_getD 0 (by omega)]

theorem hwBaselineStepC_eq (block0 : PPGBlock) (metadata_raw : List Nat) :
    hwBaselineStepC block0 metadata_raw =
      some (if 3 ≤ metadata_raw.length ∧ metadata_raw.getD 0 0 = GSB then
              { block0 with hw_baseline := some (Nat.lor (metadata_raw.getD 1 0) ((metadata_raw.getD 2 0) <<< 8)) }
            else block0) := by
  unfold hwBaselineStepC
  by_cases h3 : 3 ≤ metadata_raw.length
  · rw [if_pos h3, get?_eq_getD 0 (by omega)]
    dsimp only
    by_cases hg : metadata_raw.getD 0 0 = GSB
    · rw [if_pos hg, get?_eq_getD 0 (by omega), get?_eq_getD 0 (by omega),
        if_pos (And.intro h3 hg)]
    · rw [if_neg hg, if_neg (fun hc => hg hc.2)]
  · rw [if_neg h3, if_neg (fun hc => h3 hc.1)]

theorem buildBlockC_eq {buffer : List Nat} {esc_pos : Nat} (h : esc_pos + 10 ≤ buffer.length) :
    buildBlockC buffer esc_pos = some (buildBlock buffer esc_pos) := by
  unfold buildBlockC buildBlock extractSamples dataEndAt extractExamNumber
  rw [get?_eq_getD 0 (by omega), numSamplesAtC_eq h]
  dsimp only
  rw [extractSamplesAuxC_eq, examScanAuxC_eq]
  dsimp only
  rw [mkPPGBlockC_eq]
  dsimp only
  rw [hwBaselineStepC_eq]
  dsimp only
  set md := (buffer.drop (esc_pos + 9 + numSamplesAt buffer esc_pos * 2)).take 40 with hmd
  cases hex : examScanAux md (md.length + 1) 0 with
  | none => rfl
  | some p =>
    dsimp only
    by_cases hp : p.2 + 10 ≤ md.length
    · rw [if_pos hp, if_pos hp, applyHwMetadataC_eq _ (by rw [List.length_drop]; omega)]
    · rw [if_neg hp, if_neg hp]

theorem tryParseBlockC_eq (buffer : List Nat) :
    tryParseBlockC buffer = some (tryParseBlock buffer) := by
  unfold tryParseBlockC tryParseBlock dataEndAt
  cases hfe : firstEsc buffer with
  | none => rfl
  | some e =>
    dsimp only
    by_cases h10 : e + 10 > buffer.length
    · rw [if_pos h10, if_pos h10]
    · rw [if_neg h10, if_neg h10]
      have h10le : e + 10 ≤ buffer.length := by omega
      rw [isValidHeaderC_eq h10le]
      dsimp only
      by_cases hv : isValidHeader buffer e
      · rw [if_pos hv, if_neg (show ¬ (true = false) by simp), if_neg (not_not_intro hv),
          numSamplesAtC_eq h10le]
        dsimp only
        by_cases hde : e + 9 + numSamplesAt buffer e * 2 > buffer.length
        · rw [if_pos hde, if_pos hde]
        · rw [if_neg hde, if_neg hde]
          by_cases hmeta : ¬ hasNextBlock buffer (e + 9 + numSamplesAt buffer e * 2) ∧
              e + 9 + numSamplesAt buffer e * 2 + 10 > buffer.length
          · rw [if_pos hmeta, if_pos hmeta]
          · rw [if_neg hmeta, if_neg hmeta, buildBlockC_eq h10le]
      · rw [if_neg hv, if_pos rfl, if_pos hv]

theorem parseLoopC_eq : ∀ (fuel : Nat) (remaining : List Nat),
    parseLoopC fuel remaining = some (parseLoop fuel remaining) := by
  intro fuel
  induction fuel with
  | zero => intro r; rfl
  | succ f ih =>
    intro r
    unfold parseLoopC parseLoop
    rw [tryParseBlockC_eq]
    dsimp only
    by_cases hm : (tryParseBlock r).needs_more_data = true
    · rw [if_pos hm, if_pos hm]
    · rw [if_neg hm, if_neg hm]
      by_cases hz : (tryParseBlock r).bytes_consumed = 0
      · rw [if_pos hz, if_pos hz]
      · rw [if_neg hz, if_neg hz, ih]

theorem parse_bufferC_eq (buffer : List Nat) :
    parse_bufferC buffer = some (parse_buffer buffer) :=
  parseLoopC_eq (buffer.length + 1) buffer

theorem findCrossingAuxC_eq (samples : List ℚ) (level : ℚ) (down : Bool) :
    ∀ fuel i, findCrossingAuxC samples level down fuel i =
      some (findCrossingAux samples level down fuel i) := by
  intro fuel
  induction fuel with
  | zero => intro i; rfl
  | succ f ih =>
    intro i
    unfold findCrossingAuxC findCrossingAux
    by_cases h1 : i + 1 < samples.length
    · rw [if_pos h1, if_pos h1, get?_eq_getD 0 (by omega), get?_eq_getD 0 h1]
      dsimp only
      cases down with
      | true =>
        rw [if_pos (show true = true from rfl)]
        rw [if_pos (show true = true from rfl)]
        by_cases hc : samples.getD i 0 ≥ level ∧ samples.getD (i + 1) 0 < level
        · rw [if_pos hc, if_pos hc,
            divQC_eq _ (sub_ne_zero.mpr (ne_of_gt (lt_of_lt_of_le hc.2 hc.1)))]
          rfl
        · rw [if_neg hc, if_neg hc]
          exact ih (i + 1)
      | false =>
        rw [if_neg (show ¬ (false = true) by simp)]
        rw [if_neg (show ¬ (false = true) by simp)]
        by_cases hc : samples.getD i 0 ≤ level ∧ samples.getD (i + 1) 0 > level
        · rw [if_pos hc, if_pos hc,
            divQC_eq _ (sub_ne_zero.mpr (ne_of_gt (lt_of_le_of_lt hc.1 hc.2)))]
          rfl
        · rw [if_neg hc, if_neg hc]
          exact ih (i + 1)
    · rw [if_neg h1, if_neg h1]

theorem calculateTiC_eq (samples : List ℚ) (peak_idx : Nat) (pv bl : ℚ) {sr : ℚ}
    (hsr : sr ≠ 0) :
    calculateTiC samples peak_idx pv bl sr = some (calculateTi samples peak_idx pv bl sr) := by
  unfold calculateTiC calculateTi tiTargetIdx
  dsimp only
  by_cases h1 : pv - bl ≤ 0
  · rw [if_pos h1, if_pos h1]
  · rw [if_neg h1, if_neg h1]
    by_cases h2 : peak_idx + (⌊3 * sr⌋).toNat ≥ samples.length
    · rw [if_pos h2, if_pos h2]
    · rw [if_neg h2, if_neg h2, get?_eq_getD 0 (by omega)]
      dsimp only
      set W : ℚ := if pv - samples.getD (peak_idx + (⌊3 * sr⌋).toNat) 0 ≥ 10 then 3 else 6
        with hW
      by_cases ht : peak_idx + (⌊W * sr⌋).toNat ≥ samples.length
      · simp only [if_pos ht]
        rw [divQC_eq _ hsr, get?_eq_getD 0 (by omega)]
        dsimp only
        by_cases hden : pv - samples.getD (samples.length - 1) 0 ≤ 0
        · rw [if_pos hden, if_pos hden]
        · rw [if_neg hden, if_neg hden, divQC_eq _ (ne_of_gt (lt_of_not_le hden))]
          rfl
      · simp only [if_neg ht]
        rw [get?_eq_getD 0 (by omega)]
        dsimp only
        by_cases hden : pv - samples.getD (peak_idx + (⌊W * sr⌋).toNat) 0 ≤ 0
        · rw [if_pos hden, if_pos hden]
        · rw [if_neg hden, if_neg hden, divQC_eq _ (ne_of_gt (lt_of_not_le hden))]
          rfl

theorem calculateFoC_eq (samples : List ℚ) (peak_idx end_idx : Nat) (baseline : ℚ) {sr : ℚ}
    (hlen : 0 < samples.length) (hsr : sr ≠ 0) :
    calculateFoC samples peak_idx end_idx baseline sr =
      some (calculateFo samples peak_idx end_idx baseline sr) := by
  unfold calculateFoC calculateFo
  by_cases h1 : end_idx ≤ peak_idx ∨ baseline ≤ 0
  · rw [if_pos h1, if_pos h1]
  · rw [if_neg h1, if_neg h1]
    dsimp only
    rw [get?_eq_getD 0 (by omega)]
    dsimp only
    have hb : 0 < baseline := lt_of_not_le (fun hc => h1 (Or.inr hc))
    rw [divQC_eq _ (mul_ne_zero (ne_of_gt hb) hsr)]
    rfl

theorem extrapolateCrossingC_eq (samples : List ℚ) (level : ℚ) :
    extrapolateCrossingC samples level = some (extrapolateCrossing samples level) := by
  unfold extrapolateCrossingC extrapolateCrossing extraSlope nFit
  by_cases h10 : samples.length < 10
  · rw [if_pos h10, if_pos h10]
  · rw [if_neg h10, if_neg h10]
    dsimp only
    have hfit5 : 5 ≤ max (min 10 (samples.length / 2)) 5 := le_max_right _ _
    have hfitlen : max (min 10 (samples.length / 2)) 5 ≤ samples.length := by omega
    rw [get?_eq_getD 0 (by rw [List.length_drop]; omega),
        get?_eq_getD 0 (by rw [List.length_drop]; omega),
        get?_eq_getD 0 (by omega)]
    dsimp only
    have hq : ((max (min 10 (samples.length / 2)) 5 : Nat) : ℚ) - 1 ≠ 0 := by
      have h5 : (5 : ℚ) ≤ ((max (min 10 (samples.length / 2)) 5 : Nat) : ℚ) := by
        exact_mod_cast hfit5
      intro hc
      have h1 : ((max (min 10 (samples.length / 2)) 5 : Nat) : ℚ) = 1 := by linarith
      linarith
    rw [divQC_eq _ hq]
    dsimp only
    set sl : ℚ := ((samples.drop (samples.length - max (min 10 (samples.length / 2)) 5)).getD
        (max (min 10 (samples.length / 2)) 5 - 1) 0 -
        (samples.drop (samples.length - max (min 10 (samples.length / 2)) 5)).getD 0 0) /
        (((max (min 10 (samples.length / 2)) 5 : Nat) : ℚ) - 1) with hsl
    by_cases hslope : sl ≥ 0
    · rw [if_pos hslope, if_pos hslope]
    · rw [if_neg hslope, if_neg hslope]
      by_cases hrem : samples.getD (samples.length - 1) 0 - level ≤ 0
      · rw [if_pos hrem, if_pos hrem]
      · rw [if_neg hrem, if_neg hrem,
          divQC_eq _ (abs_ne_zero.mpr (ne_of_lt (lt_of_not_le hslope)))]
        rfl

theorem calculateTauC_eq (samples : List ℚ) (peak_idx end_idx : Nat) (bl pv : ℚ) :
    calculateTauC samples peak_idx end_idx bl pv =
      some (calculateTau samples peak_idx end_idx bl pv) := by
  unfold calculateTauC calculateTau
  by_cases h1 : end_idx ≤ peak_idx
  · rw [if_pos h1, if_pos h1]
  · rw [if_neg h1, if_neg h1]
    dsimp only
    by_cases h2 : ((samples.drop peak_idx).take (end_idx + 1 - peak_idx)).length < 10
    · rw [if_pos h2, if_pos h2]
    · rw [if_neg h2, if_neg h2]
      by_cases h3 : pv - bl ≤ 0
      · rw [if_pos h3, if_pos h3]
      · rw [if_neg h3, if_neg h3]

theorem softwarePeakC_eq (samples : List ℚ) (ib : ℚ) (h : 0 < samples.length) :
    softwarePeakC samples ib = some (softwarePeak samples ib) := by
  unfold softwarePeakC softwarePeak
  rw [listMaxQC_eq h]
  dsimp only
  by_cases hb : 0 < ib
  · rw [if_pos hb, if_pos hb, divQC_eq _ (ne_of_gt hb)]
    dsimp only [Option.map]
    by_cases hee : min 100 (samples.length - 10) ≤ 5
    · rw [if_pos hee, if_pos hee]
    · rw [if_neg hee, if_neg hee]
      by_cases hvo : (listMaxQ samples - ib) / ib * 100 < 3
      · rw [if_pos hvo, if_pos hvo,
          argmaxQC_eq (by simp only [List.length_take, List.length_drop]; omega)]
      · rw [if_neg hvo, if_neg hvo]
        split
        · rename_i hw5
          dsimp only
          by_cases hse : 9 * (movingAvg samples 5).length / 10 ≤
              max 10 ((movingAvg samples 5).length / 10)
          · rw [if_pos hse, if_pos hse]
          · rw [if_neg hse, if_neg hse,
              argmaxQC_eq (by simp only [List.length_take, List.length_drop]; omega)]
        · rename_i hw5
          dsimp only
          by_cases hse : 9 * samples.length / 10 ≤ max 10 (samples.length / 10)
          · rw [if_pos hse, if_pos hse]
          · rw [if_neg hse, if_neg hse,
              argmaxQC_eq (by simp only [List.length_take, List.length_drop]; omega)]
  · rw [if_neg hb, if_neg hb]
    dsimp only
    by_cases hee : min 100 (samples.length - 10) ≤ 5
    · rw [if_pos hee, if_pos hee]
    · rw [if_neg hee, if_neg hee]
      by_cases hvo : (0 : ℚ) < 3
      · rw [if_pos hvo, if_pos hvo,
          argmaxQC_eq (by simp only [List.length_take, List.length_drop]; omega)]
      · exact absurd (by norm_num) hvo

theorem exerciseStartAuxC_eq (samples : List ℚ) (threshold : ℚ) (peak_idx : Nat)
    (hpk : peak_idx ≤ samples.length) :
    ∀ fuel i, exerciseStartAuxC samples threshold peak_idx fuel i =
      some (exerciseStartAux samples threshold peak_idx fuel i) := by
  intro fuel
  induction fuel with
  | zero => intro i; rfl
  | succ f ih =>
    intro i
    unfold exerciseStartAuxC exerciseStartAux
    by_cases h1 : i < peak_idx
    · rw [if_pos h1, if_pos h1, get?_eq_getD 0 (by omega)]
      dsimp only
      by_cases h2 : samples.getD i 0 ≥ threshold
      · rw [if_pos h2, if_pos h2]
      · rw [if_neg h2, if_neg h2]
        exact ih (i + 1)
    · rw [if_neg h1, if_neg h1]

theorem softwarePeak_lt {samples : List ℚ} {ib : ℚ} {p : Nat}
    (h : softwarePeak samples ib = some p) (hpos : 0 < samples.length) :
    p < samples.length := by
  unfold softwarePeak at h
  dsimp only at h
  repeat' split at h
  all_goals first
    | (have hp := Option.some.inj h; omega)
    | simp at h

theorem cpPeakOpt_lt {block : PPGBlock} {p : Nat} (h : cpPeakOpt block = some p)
    (hpos : 0 < (cpSamples block).length) : p < (cpSamples block).length := by
  unfold cpPeakOpt at h
  split at h
  · rename_i hw
    have hp := Option.some.inj h
    omega
  · exact softwarePeak_lt h hpos

theorem cpInitialBaselineC_eq (block : PPGBlock) (h40 : 40 ≤ (cpSamples block).length) :
    cpInitialBaselineC block = some (cpInitialBaseline block) := by
  unfold cpInitialBaselineC cpInitialBaseline
  by_cases hw : hasHw block
  · rw [if_pos hw, if_pos hw]
  · rw [if_neg hw, if_neg hw, medianQC_eq (by rw [List.length_take]; omega)]

theorem cpStableBaselineC_eq (block : PPGBlock) (h40 : 40 ≤ (cpSamples block).length) :
    cpStableBaselineC block = some (cpStableBaseline block) := by
  unfold cpStableBaselineC cpStableBaseline
  rw [medianQC_eq (by rw [List.length_drop]; omega)]

theorem cpPeakOptC_eq (block : PPGBlock) (h40 : 40 ≤ (cpSamples block).length) :
    cpPeakOptC block = some (cpPeakOpt block) := by
  unfold cpPeakOptC cpPeakOpt
  rw [cpInitialBaselineC_eq block h40]
  dsimp only
  by_cases hw : hasHw block ∧ block.hw_peak_index.getD 0 < (cpSamples block).length
  · rw [if_pos hw, if_pos hw]
  · rw [if_neg hw, if_neg hw]
    exact softwarePeakC_eq _ _ (by omega)

theorem cpAmplitudeVoC_eq (block : PPGBlock) {peak_idx : Nat}
    (hp : peak_idx < (cpSamples block).length) (h40 : 40 ≤ (cpSamples block).length) :
    cpAmplitudeVoC block peak_idx = some (cpAmplitudeVo block peak_idx) := by
  unfold cpAmplitudeVoC cpAmplitudeVo cpPeakValue
  by_cases hw : hasHw block ∧ 0 < block.hw_amplitude.getD 0
  · rw [if_pos hw, if_pos hw]
  · rw [if_neg hw, if_neg hw, get?_eq_getD 0 hp, cpInitialBaselineC_eq block h40]

theorem cpVoC_eq (block : PPGBlock) {peak_idx : Nat}
    (hp : peak_idx < (cpSamples block).length) (h40 : 40 ≤ (cpSamples block).length)
    (hib : cpInitialBaseline block ≠ 0) :
    cpVoC block peak_idx = some (cpVo block peak_idx) := by
  unfold cpVoC cpVo
  rw [cpAmplitudeVoC_eq block hp h40, cpInitialBaselineC_eq block h40]
  dsimp only
  rw [divQC_eq _ hib]
  rfl

theorem cpThC_eq (block : PPGBlock) {peak_idx : Nat}
    (hp : peak_idx < (cpSamples block).length) (h40 : 40 ≤ (cpSamples block).length) :
    cpThC block peak_idx = some (cpTh block peak_idx) := by
  unfold cpThC cpTh findCrossingC findCrossing
  by_cases hw : hasHw block ∧ block.hw_Th_samples.isSome = true ∧
      0 < block.hw_Th_samples.getD 0
  · rw [if_pos hw, if_pos hw]
  · rw [if_neg hw, if_neg hw, cpInitialBaselineC_eq block h40, cpAmplitudeVoC_eq block hp h40]
    dsimp only
    rw [findCrossingAuxC_eq]

theorem cpTiOptC_eq (block : PPGBlock) {peak_idx : Nat}
    (hp : peak_idx < (cpSamples block).length) (h40 : 40 ≤ (cpSamples block).length) :
    cpTiOptC block peak_idx = some (cpTiOpt block peak_idx) := by
  unfold cpTiOptC cpTiOpt cpPeakValue
  by_cases hw : hwTiUsed block
  · rw [if_pos hw, if_pos hw]
  · rw [if_neg hw, if_neg hw, get?_eq_getD 0 hp, cpInitialBaselineC_eq block h40]
    dsimp only
    exact calculateTiC_eq _ _ _ _ (by norm_num)

theorem cpLevelToC_eq (block : PPGBlock) {peak_idx : Nat}
    (hp : peak_idx < (cpSamples block).length) (h40 : 40 ≤ (cpSamples block).length) :
    cpLevelToC block peak_idx =
      some (cpLevelTo block peak_idx) := by
  unfold cpLevelToC cpLevelTo cpPeakValue
  rw [cpStableBaselineC_eq block h40, cpInitialBaselineC_eq block h40, get?_eq_getD 0 hp,
      cpAmplitudeVoC_eq block hp h40]

theorem cpToSamplesOptC_eq (block : PPGBlock) {peak_idx : Nat}
    (hp : peak_idx < (cpSamples block).length) (h40 : 40 ≤ (cpSamples block).length) :
    cpToSamplesOptC block peak_idx = some (cpToSamplesOpt block peak_idx) := by
  unfold cpToSamplesOptC cpToSamplesOpt findCrossingC findCrossing
  by_cases hw : hwToUsed block
  · rw [if_pos hw, if_pos hw]
  · rw [if_neg hw, if_neg hw, cpLevelToC_eq block hp h40]
    dsimp only
    rw [findCrossingAuxC_eq]
    dsimp only
    cases findCrossingAux (cpRecovery block peak_idx) (cpLevelTo block peak_idx) true
        (cpRecovery block peak_idx).length 0 with
    | some v => rfl
    | none => exact extrapolateCrossingC_eq _ _

theorem cpToOptC_eq (block : PPGBlock) {peak_idx : Nat}
    (hp : peak_idx < (cpSamples block).length) (h40 : 40 ≤ (cpSamples block).length) :
    cpToOptC block peak_idx = some (cpToOpt block peak_idx) := by
  unfold cpToOptC cpToOpt
  by_cases hw : hwToUsed block
  · rw [if_pos hw, if_pos hw, cpToSamplesOptC_eq block hp h40]
    rfl
  · rw [if_neg hw, if_neg hw, cpToSamplesOptC_eq block hp h40]

theorem cpFoEndIdxC_eq (block : PPGBlock) {peak_idx : Nat}
    (hp : peak_idx < (cpSamples block).length) (h40 : 40 ≤ (cpSamples block).length) :
    cpFoEndIdxC block peak_idx = some (cpFoEndIdx block peak_idx) := by
  unfold cpFoEndIdxC cpFoEndIdx
  by_cases hw : hasHw block ∧ block.hw_To_samples.isSome = true
  · rw [if_pos hw, if_pos hw]
  · rw [if_neg hw, if_neg hw, cpToSamplesOptC_eq block hp h40]

theorem cpFoC_eq (block : PPGBlock) {peak_idx : Nat}
    (hp : peak_idx < (cpSamples block).length) (h40 : 40 ≤ (cpSamples block).length) :
    cpFoC block peak_idx = some (cpFo block peak_idx) := by
  unfold cpFoC cpFo
  by_cases hw : hasHw block ∧ block.hw_Fo_x100.isSome = true ∧ 0 < block.hw_Fo_x100.getD 0
  · rw [if_pos hw, if_pos hw]
  · rw [if_neg hw, if_neg hw, cpFoEndIdxC_eq block hp h40, cpInitialBaselineC_eq block h40]
    dsimp only
    exact calculateFoC_eq _ _ _ _ (by omega) (by norm_num)

theorem cpToEndIndexC_eq (block : PPGBlock) {peak_idx : Nat}
    (hp : peak_idx < (cpSamples block).length) (h40 : 40 ≤ (cpSamples block).length) :
    cpToEndIndexC block peak_idx = some (cpToEndIndex block peak_idx) := by
  unfold cpToEndIndexC cpToEndIndex
  by_cases hw : hasHw block ∧ block.hw_end_index.isSome = true
  · rw [if_pos hw, if_pos hw]
  · rw [if_neg hw, if_neg hw, cpToSamplesOptC_eq block hp h40]

theorem cpExerciseStartC_eq (block : PPGBlock) {peak_idx : Nat}
    (hp : peak_idx < (cpSamples block).length) (h40 : 40 ≤ (cpSamples block).length) :
    cpExerciseStartC block peak_idx = some (cpExerciseStart block peak_idx) := by
  unfold cpExerciseStartC cpExerciseStart exerciseStart
  rw [cpInitialBaselineC_eq block h40, cpAmplitudeVoC_eq block hp h40]
  dsimp only
  exact exerciseStartAuxC_eq _ _ _ (by omega) _ _

theorem cpTauC_eq (block : PPGBlock) {peak_idx : Nat}
    (hp : peak_idx < (cpSamples block).length) (h40 : 40 ≤ (cpSamples block).length) :
    cpTauC block peak_idx = some (cpTau block peak_idx) := by
  unfold cpTauC cpTau cpPeakValue
  rw [cpToEndIndexC_eq block hp h40, cpInitialBaselineC_eq block h40, get?_eq_getD 0 hp]
  dsimp only
  exact calculateTauC_eq _ _ _ _ _

theorem calculate_parametersC_eq (block : PPGBlock) :
    calculate_parametersC block = some (calculate_parameters block) := by
  unfold calculate_parametersC calculate_parameters
  by_cases h40 : (cpSamples block).length < 40
  · rw [if_pos h40, if_pos h40]
  · rw [if_neg h40, if_neg h40, cpPeakOptC_eq block (by omega)]
    cases hpk : cpPeakOpt block with
    | none => rfl
    | some peak_idx =>
      dsimp only
      have hp : peak_idx < (cpSamples block).length := cpPeakOpt_lt hpk (by omega)
      rw [cpAmplitudeVoC_eq block hp (by omega), cpInitialBaselineC_eq block (by omega)]
      dsimp only
      by_cases hg : cpAmplitudeVo block peak_idx ≤ 0 ∨ cpInitialBaseline block ≤ 0
      · rw [if_pos hg, if_pos hg]
      · rw [if_neg hg, if_neg hg]
        have hib : cpInitialBaseline block ≠ 0 := by
          intro hc
          exact hg (Or.inr (le_of_eq hc))
        rw [cpVoC_eq block hp (by omega) hib]
        dsimp only
        by_cases hvo : cpVo block peak_idx < 1/2
        · rw [if_pos hvo, if_pos hvo]
        · rw [if_neg hvo, if_neg hvo]
          by_cases hrec : (cpRecovery block peak_idx).length < 10
          · rw [if_pos hrec, if_pos hrec]
          · rw [if_neg hrec, if_neg hrec, cpThC_eq block hp (by omega),
              cpToOptC_eq block hp (by omega), cpTiOptC_eq block hp (by omega)]
            dsimp only
            cases hTo : cpToOpt block peak_idx with
            | none =>
              cases hTi : cpTiOpt block peak_idx with
              | none => rfl
              | some Ti => rfl
            | some To =>
              cases hTi : cpTiOpt block peak_idx with
              | none => rfl
              | some Ti =>
                dsimp only
                by_cases hpos : To ≤ 0 ∨ cpTh block peak_idx ≤ 0 ∨ Ti ≤ 0
                · rw [if_pos hpos, if_pos hpos]
                · rw [if_neg hpos, if_neg hpos, cpFoC_eq block hp (by omega),
                    cpToEndIndexC_eq block hp (by omega), cpExerciseStartC_eq block hp (by omega),
                    cpTauC_eq block hp (by omega), get?_eq_getD 0 hp]
                  rfl

/-- Claim C5: totality on malformed-but-bounded input.  The checked variants
parse_bufferC and calculate_parametersC return an outer none exactly where
the source would raise — an unguarded index access, a division whose divisor
is zero, or a numpy reduction over an empty array — and they are proved to
return `some` of the unchecked result on EVERY input: parse_buffer always
yields a (blocks, remainder) pair and calculate_parameters always yields
None or a full parameter record, never reaching a partial operation. -/
theorem claim_C5 :
    (∀ buffer : List Nat, parse_bufferC buffer = some (parse_buffer buffer)) ∧
    (∀ block : PPGBlock, calculate_parametersC block = some (calculate_parameters block)) :=
  ⟨parse_bufferC_eq, calculate_parametersC_eq⟩

end DPPG
